import Mathlib

/-!
# Verification of the libbitsub subtitle decoder

Shallow embedding of the decoder/renderer pipeline of the `libbitsub`
repository (PGS and VobSub graphical subtitle decoding), together with
proofs about the embedded operations.

Bytes are modelled as `Nat` values (< 256 in any real input); machine
integers are modelled as `Nat` with explicit clamping where the source
performs saturating arithmetic.  Buffers passed as `&mut [u8]` slices are
modelled functionally: a decoder that fills a prefix of a destination
buffer of capacity `cap` is modelled as a function returning the list of
written values (length ≤ `cap`).
-/

namespace LibBitSub

/-! ## PGS RLE codec (`src/pgs/rle.rs`)

`decode_rle_to_indexed(data, target)` walks `data` while `pos < len` and
`idx < target_len`.  A non-zero byte is a literal palette index; a zero
byte starts a control code.  We model the destination by its remaining
capacity `room` and return the list of written values.  Reads past the
end of `data` use `unwrap_or(0)`, which we mirror by matching shallower
lists (missing operand bytes read as 0, and the loop then stops because
`pos ≥ len`). -/

/-- `decode_rle_to_indexed` from `src/pgs/rle.rs`: returns the written
prefix of a destination of capacity `room`. -/
def decode_rle_to_indexed : List Nat → Nat → List Nat
  | [], _ => []
  | b1 :: rest, room =>
    if room = 0 then []
    else if b1 ≠ 0 then
      -- literal palette index
      b1 :: decode_rle_to_indexed rest (room - 1)
    else
      match rest with
      | [] => []
      | b2 :: rest2 =>
        if b2 = 0 then
          -- end-of-line marker: produces no output
          decode_rle_to_indexed rest2 room
        else if b2 &&& 0xC0 = 0xC0 then
          -- extended length with color: 0x00 0xCN 0xNN 0xCC
          match rest2 with
          | [] =>
            -- low and color bytes both read as 0 (unwrap_or), then pos ≥ len
            List.replicate (min (((b2 &&& 0x3F) <<< 8)) room) 0
          | [low] =>
            List.replicate (min ((((b2 &&& 0x3F) <<< 8)) ||| low) room) 0
          | low :: color :: rest3 =>
            List.replicate (min ((((b2 &&& 0x3F) <<< 8)) ||| low) room) color ++
              decode_rle_to_indexed rest3
                (room - min ((((b2 &&& 0x3F) <<< 8)) ||| low) room)
        else if b2 &&& 0x80 ≠ 0 then
          -- short length with color: 0x00 0x8N 0xCC
          match rest2 with
          | [] => List.replicate (min (b2 &&& 0x3F) room) 0
          | color :: rest3 =>
            List.replicate (min (b2 &&& 0x3F) room) color ++
              decode_rle_to_indexed rest3 (room - min (b2 &&& 0x3F) room)
        else if b2 &&& 0x40 ≠ 0 then
          -- extended length, transparent: 0x00 0x4N 0xNN
          match rest2 with
          | [] => List.replicate (min (((b2 &&& 0x3F) <<< 8)) room) 0
          | low :: rest3 =>
            List.replicate (min ((((b2 &&& 0x3F) <<< 8)) ||| low) room) 0 ++
              decode_rle_to_indexed rest3
                (room - min ((((b2 &&& 0x3F) <<< 8)) ||| low) room)
        else
          -- short length, transparent: 0x00 0xNN
          List.replicate (min (b2 &&& 0x3F) room) 0 ++
            decode_rle_to_indexed rest2 (room - min (b2 &&& 0x3F) room)

/-- Palette lookup used throughout `rle.rs`:
`if idx < palette_len { palette[idx] } else { 0 }`. -/
def palLookup (palette : List Nat) (i : Nat) : Nat :=
  if i < palette.length then palette.getD i 0 else 0

/-- `decode_rle_to_rgba` from `src/pgs/rle.rs`: the fused decoder writing
packed RGBA words directly via palette lookup. -/
def decode_rle_to_rgba (data : List Nat) (palette : List Nat) (room : Nat) : List Nat :=
  -- cached transparent color: `palette[0]` when non-empty, else 0
  go data room
where
  go : List Nat → Nat → List Nat
  | [], _ => []
  | b1 :: rest, room =>
    if room = 0 then []
    else if b1 ≠ 0 then
      (if b1 < palette.length then palette.getD b1 0 else 0) ::
        go rest (room - 1)
    else
      match rest with
      | [] => []
      | b2 :: rest2 =>
        if b2 = 0 then
          go rest2 room
        else if b2 &&& 0xC0 = 0xC0 then
          match rest2 with
          | [] =>
            List.replicate (min (((b2 &&& 0x3F) <<< 8)) room)
              (if 0 < palette.length then palette.getD 0 0 else 0)
          | [low] =>
            List.replicate (min ((((b2 &&& 0x3F) <<< 8)) ||| low) room)
              (if 0 < palette.length then palette.getD 0 0 else 0)
          | low :: colorIdx :: rest3 =>
            List.replicate (min ((((b2 &&& 0x3F) <<< 8)) ||| low) room)
              (if colorIdx < palette.length then palette.getD colorIdx 0 else 0) ++
              go rest3 (room - min ((((b2 &&& 0x3F) <<< 8)) ||| low) room)
        else if b2 &&& 0x80 ≠ 0 then
          match rest2 with
          | [] =>
            List.replicate (min (b2 &&& 0x3F) room)
              (if 0 < palette.length then palette.getD 0 0 else 0)
          | colorIdx :: rest3 =>
            List.replicate (min (b2 &&& 0x3F) room)
              (if colorIdx < palette.length then palette.getD colorIdx 0 else 0) ++
              go rest3 (room - min (b2 &&& 0x3F) room)
        else if b2 &&& 0x40 ≠ 0 then
          match rest2 with
          | [] =>
            List.replicate (min (((b2 &&& 0x3F) <<< 8)) room)
              (if 0 < palette.length then palette.getD 0 0 else 0)
          | low :: rest3 =>
            List.replicate (min ((((b2 &&& 0x3F) <<< 8)) ||| low) room)
              (if 0 < palette.length then palette.getD 0 0 else 0) ++
              go rest3 (room - min ((((b2 &&& 0x3F) <<< 8)) ||| low) room)
        else
          List.replicate (min (b2 &&& 0x3F) room)
            (if 0 < palette.length then palette.getD 0 0 else 0) ++
            go rest2 (room - min (b2 &&& 0x3F) room)

/-- `apply_palette` from `src/pgs/rle.rs`: writes
`target[i] = if indexed[i] < palette_len { palette[indexed[i]] } else { 0 }`
for `i < min (indexed.len) (target.len)`; positions beyond keep the old
target contents. -/
def apply_palette : List Nat → List Nat → List Nat → List Nat
  | [], _, target => target
  | _, _, [] => []
  | i :: is, palette, _t :: ts =>
    (if i < palette.length then palette.getD i 0 else 0) :: apply_palette is palette ts

/-! ## Timestamp binary search (`src/utils.rs`) -/

/-- The `while low < high` loop of `binary_search_timestamp`. -/
def bsLoop (ts : List Nat) (target low high : Nat) : Nat :=
  if low < high then
    if ts.getD (low + (high - low) / 2) 0 ≤ target then
      bsLoop ts target (low + (high - low) / 2 + 1) high
    else
      bsLoop ts target low (low + (high - low) / 2)
  else low
termination_by high - low
decreasing_by all_goals omega

/-- `binary_search_timestamp` from `src/utils.rs`. -/
def binary_search_timestamp (timestamps : List Nat) (target : Nat) : Nat :=
  if timestamps.isEmpty then 0
  else
    let low := bsLoop timestamps target 0 timestamps.length
    if low > 0 then low - 1 else 0

/-! ## VobSub seek (`src/vobsub/vobsub_parser.rs`)

`calculate_end_time` may lazily parse the packet at `index` through
`get_or_parse_packet` to read its explicit `duration_ms`.  We model the
packet store as a function `pkt : Nat → Option Nat` giving the
`duration_ms` of the packet that `get_or_parse_packet(i)` would yield
(`none` when packet parsing fails or data is missing). -/

/-- `u32::saturating_add`. -/
def u32SatAdd (a b : Nat) : Nat := min (a + b) 4294967295

/-- The `get_or_parse_packet(index).filter(|p| p.duration_ms > 0 &&
p.duration_ms != 5000).map(|p| p.duration_ms)` step of
`calculate_end_time`. -/
def explicitDuration (pkt : Nat → Option Nat) (index : Nat) : Option Nat :=
  match pkt index with
  | some d => if 0 < d ∧ d ≠ 5000 then some d else none
  | none => none

/-- `VobSubParser::calculate_end_time` from
`src/vobsub/vobsub_parser.rs` (`MAX_LAST_DURATION_MS = 5000`). -/
def calculate_end_time (timestamps_ms : List Nat) (pkt : Nat → Option Nat)
    (index start_time : Nat) : Nat :=
  if index + 1 < timestamps_ms.length then
    match explicitDuration pkt index with
    | some duration =>
      min (u32SatAdd start_time duration) (timestamps_ms.getD (index + 1) 0)
    | none => timestamps_ms.getD (index + 1) 0
  else
    match explicitDuration pkt index with
    | some duration => u32SatAdd start_time duration
    | none => u32SatAdd start_time 5000

/-- `VobSubParser::find_index_at_timestamp` from
`src/vobsub/vobsub_parser.rs` (query already cast to u32 ms). -/
def find_index_at_timestamp (timestamps_ms : List Nat)
    (pkt : Nat → Option Nat) (time_ms : Nat) : Int :=
  if timestamps_ms.isEmpty then -1
  else
    let index := binary_search_timestamp timestamps_ms time_ms
    let start_time := timestamps_ms.getD index 0
    if time_ms < start_time then -1
    else if time_ms < calculate_end_time timestamps_ms pkt index start_time
      then (index : Int)
    else -1

/-- The end time exactly as the specification words it (plain natural
arithmetic, no u32 saturation): `min(timestamps[i+1], timestamps[i]+d)`
when a next entry exists and packet `i` has an explicit duration `d`
with `d > 0`, `d ≠ 5000`; else `timestamps[i+1]` when a next entry
exists; else `timestamps[i] +` (explicit duration, or 5000 when none). -/
def endTimeSpec (timestamps_ms : List Nat) (pkt : Nat → Option Nat)
    (i : Nat) : Nat :=
  if i + 1 < timestamps_ms.length then
    match explicitDuration pkt i with
    | some d =>
      min (timestamps_ms.getD (i + 1) 0) (timestamps_ms.getD i 0 + d)
    | none => timestamps_ms.getD (i + 1) 0
  else
    match explicitDuration pkt i with
    | some d => timestamps_ms.getD i 0 + d
    | none => timestamps_ms.getD i 0 + 5000

/-! ## VobSub SPU parsing (`src/vobsub/sub_parser.rs`)

`parse_subtitle_data` interprets the DCSQ control blocks of one SPU.
Bytes are `Nat`s; `data[i]` reads are modelled with `getD _ 0` behind the
same bounds checks the source performs. -/

/-- The mutable locals of `parse_subtitle_data`'s control-sequence
interpretation. -/
structure SpuState where
  x : Nat
  y : Nat
  width : Nat
  height : Nat
  duration : Nat
  found_stop : Bool
  color_indices : List Nat
  alpha_values : List Nat
  top_field_offset : Nat
  bottom_field_offset : Nat
deriving DecidableEq

/-- Initial values of the control-sequence locals. -/
def spuInit : SpuState :=
  { x := 0, y := 0, width := 0, height := 0, duration := 0
    found_stop := false
    color_indices := [0, 1, 2, 3], alpha_values := [0, 15, 15, 15]
    top_field_offset := 0, bottom_field_offset := 0 }

/-- `SubtitlePacket` from `src/vobsub/sub_parser.rs`. -/
structure SubtitlePacket where
  timestamp_ms : Nat
  duration_ms : Nat
  x : Nat
  y : Nat
  width : Nat
  height : Nat
  color_indices : List Nat
  alpha_values : List Nat
  even_field_data : List Nat
  odd_field_data : List Nat
deriving DecidableEq

/-- The inner `while ctrl_offset < end_offset` command loop of
`parse_subtitle_data`.  `co` is `ctrl_offset`; the loop reads one
command byte, dispatches, and breaks on `0xFF` or `0x02` (stop).
Returns the updated state and the final `ctrl_offset`. -/
def cmdLoop (data : List Nat) (delay : Nat) (st : SpuState) (co : Nat) :
    SpuState × Nat :=
  if h : co < data.length then
    -- cmd = data[ctrl_offset]; ctrl_offset += 1
    if data.getD co 0 = 0x02 then
      -- stop display: duration from the enclosing block's delay
      ({ st with duration := delay * 1024 / 90, found_stop := true }, co + 1)
    else if data.getD co 0 = 0xFF then
      -- end of control sequence
      (st, co + 1)
    else if data.getD co 0 = 0x03 then
      -- set palette (two operand bytes, skipped if they do not fit)
      if co + 1 + 2 ≤ data.length then
        cmdLoop data delay
          { st with color_indices := [
              data.getD (co + 2) 0 &&& 0x0F,
              (data.getD (co + 2) 0 >>> 4) &&& 0x0F,
              data.getD (co + 1) 0 &&& 0x0F,
              (data.getD (co + 1) 0 >>> 4) &&& 0x0F] }
          (co + 3)
      else cmdLoop data delay st (co + 1)
    else if data.getD co 0 = 0x04 then
      -- set alpha
      if co + 1 + 2 ≤ data.length then
        cmdLoop data delay
          { st with alpha_values := [
              data.getD (co + 2) 0 &&& 0x0F,
              (data.getD (co + 2) 0 >>> 4) &&& 0x0F,
              data.getD (co + 1) 0 &&& 0x0F,
              (data.getD (co + 1) 0 >>> 4) &&& 0x0F] }
          (co + 3)
      else cmdLoop data delay st (co + 1)
    else if data.getD co 0 = 0x05 then
      -- set display area (six operand bytes of 12-bit fields)
      if co + 1 + 6 ≤ data.length then
        cmdLoop data delay
          { st with
            x := (data.getD (co + 1) 0 <<< 4) |||
              (data.getD (co + 2) 0 >>> 4)
            y := (data.getD (co + 4) 0 <<< 4) |||
              (data.getD (co + 5) 0 >>> 4)
            width := (((data.getD (co + 2) 0 &&& 0x0F) <<< 8) |||
                data.getD (co + 3) 0) -
              ((data.getD (co + 1) 0 <<< 4) |||
                (data.getD (co + 2) 0 >>> 4)) + 1
            height := (((data.getD (co + 5) 0 &&& 0x0F) <<< 8) |||
                data.getD (co + 6) 0) -
              ((data.getD (co + 4) 0 <<< 4) |||
                (data.getD (co + 5) 0 >>> 4)) + 1 }
          (co + 7)
      else cmdLoop data delay st (co + 1)
    else if data.getD co 0 = 0x06 then
      -- set field offsets
      if co + 1 + 4 ≤ data.length then
        cmdLoop data delay
          { st with
            top_field_offset :=
              (data.getD (co + 1) 0 <<< 8) ||| data.getD (co + 2) 0
            bottom_field_offset :=
              (data.getD (co + 3) 0 <<< 8) ||| data.getD (co + 4) 0 }
          (co + 5)
      else cmdLoop data delay st (co + 1)
    else
      -- 0x00 force display, 0x01 start display, unknown commands
      cmdLoop data delay st (co + 1)
  else (st, co)
termination_by data.length - co
decreasing_by all_goals omega

/-- The outer DCSQ block chain loop of `parse_subtitle_data`.
`remaining` is `MAX_ITERATIONS - iterations` (the source caps the chain
at 1000 blocks); `co` is the current block's absolute offset.  Returns
the final state and the list of visited block start offsets. -/
def blockLoop (data : List Nat) (dcsq_offset : Nat) (remaining : Nat)
    (st : SpuState) (co : Nat) : SpuState × List Nat :=
  if remaining = 0 then (st, [])
  else if co < data.length ∧ st.found_stop = false then
    -- block_start = ctrl_offset
    if co + 4 > data.length then (st, [co])
    else
      -- delay and next-block offset, two big-endian u16s
      let res := cmdLoop data
        ((data.getD co 0 <<< 8) ||| data.getD (co + 1) 0) st (co + 4)
      -- terminate when next_ctrl_offset < dcsq_offset or when the next
      -- block would start at or before this one (self-reference)
      if ((data.getD (co + 2) 0 <<< 8) ||| data.getD (co + 3) 0) <
            dcsq_offset ∨
          ((data.getD (co + 2) 0 <<< 8) ||| data.getD (co + 3) 0) ≤ co then
        (res.1, [co])
      else
        let rest := blockLoop data dcsq_offset (remaining - 1) res.1
          ((data.getD (co + 2) 0 <<< 8) ||| data.getD (co + 3) 0)
        (rest.1, co :: rest.2)
  else (st, [])
termination_by remaining
decreasing_by all_goals omega

/-- `parse_subtitle_data` from `src/vobsub/sub_parser.rs`. -/
def parse_subtitle_data (data : List Nat) (pts : Nat) :
    Option SubtitlePacket :=
  if data.length < 4 then none
  else
    let dcsq_offset := (data.getD 2 0 <<< 8) ||| data.getD 3 0
    let st := (blockLoop data dcsq_offset 1000 spuInit dcsq_offset).1
    let even_start := if st.top_field_offset > 0 then st.top_field_offset
      else 4
    let odd_start := if st.bottom_field_offset > 0 then
        st.bottom_field_offset
      else even_start
    let even_field_end := odd_start
    let odd_field_end := dcsq_offset
    some {
      timestamp_ms := pts
      duration_ms := if st.duration > 0 then st.duration else 5000
      x := st.x, y := st.y, width := st.width, height := st.height
      color_indices := st.color_indices
      alpha_values := st.alpha_values
      even_field_data :=
        if even_start < min even_field_end data.length then
          (data.drop even_start).take
            (min even_field_end data.length - even_start)
        else []
      odd_field_data :=
        if odd_start < min odd_field_end data.length then
          (data.drop odd_start).take
            (min odd_field_end data.length - odd_start)
        else [] }

/-- The DCSQ block starts visited by `parse_subtitle_data` on `data`. -/
def spu_block_trace (data : List Nat) : List Nat :=
  if data.length < 4 then []
  else
    (blockLoop data ((data.getD 2 0 <<< 8) ||| data.getD 3 0) 1000 spuInit
      ((data.getD 2 0 <<< 8) ||| data.getD 3 0)).2

/-- Whether the DCSQ interpretation of `data` executed a stop-display
(0x02) command. -/
def spuFoundStop (data : List Nat) : Bool :=
  if data.length < 4 then false
  else
    (blockLoop data ((data.getD 2 0 <<< 8) ||| data.getD 3 0) 1000 spuInit
      ((data.getD 2 0 <<< 8) ||| data.getD 3 0)).1.found_stop

/-! ## IDX parsing (`src/vobsub/idx_parser.rs`)

`parse_idx` is a line-oriented text parser.  We embed the part of its
state that claims C8 concerns — the `timestamps` vector — working over
`List Char`.  The `size:`/`palette:`/`id:` branches only update palette
and metadata and then `continue`, so for the timestamp list they are
pure line skips; the embedding mirrors exactly the control flow that
decides whether a line appends a timestamp entry.  `str::trim` and
`char::is_whitespace` are modelled with `Char.isWhitespace` (identical
on the ASCII whitespace that occurs in IDX files). -/

/-- Rust `str::strip_prefix` on character lists. -/
def stripPfx : List Char → List Char → Option (List Char)
  | [], s => some s
  | _, [] => none
  | p :: ps, c :: cs => if c = p then stripPfx ps cs else none

/-- Rust `str::trim` on character lists. -/
def strTrim (s : List Char) : List Char :=
  ((s.dropWhile Char.isWhitespace).reverse.dropWhile
    Char.isWhitespace).reverse

/-- Split on a separator character, keeping empty pieces (Rust
`str::split`).  Always returns at least one piece. -/
def splitOnChar (c : Char) : List Char → List (List Char)
  | [] => [[]]
  | x :: xs =>
    if x = c then [] :: splitOnChar c xs
    else
      match splitOnChar c xs with
      | [] => [[x]]
      | l :: ls => (x :: l) :: ls

/-- Rust `str::split_once`. -/
def splitOnce (c : Char) : List Char → Option (List Char × List Char)
  | [] => none
  | x :: xs =>
    if x = c then some ([], xs)
    else
      match splitOnce c xs with
      | some (a, b) => some (x :: a, b)
      | none => none

/-- Drop one trailing `'\r'` (carriage return of a `\r\n` line ending). -/
def stripCr (l : List Char) : List Char :=
  if l.getLast? = some '\r' then l.dropLast else l

/-- Rust `str::lines`: pieces split on `'\n'`, each terminated piece
stripped of a trailing `'\r'`; a trailing newline yields no final empty
line. -/
def rustLines (s : List Char) : List (List Char) :=
  let parts := splitOnChar '\n' s
  parts.dropLast.map stripCr ++
    (if parts.getLast? = some [] then [] else [parts.getLast?.getD []])

/-- Rust `u32::from_str` (decimal): optional leading `'+'`, at least one
ASCII digit, value below `2^32`. -/
def parseU32 (s : List Char) : Option Nat :=
  let digits := match s with
    | '+' :: rest => rest
    | _ => s
  if digits = [] then none
  else if digits.all Char.isDigit then
    let v := digits.foldl (fun acc c => acc * 10 + (c.toNat - '0'.toNat)) 0
    if v < 2 ^ 32 then some v else none
  else none

/-- Value of one hexadecimal digit. -/
def hexDigitVal (c : Char) : Option Nat :=
  if c.isDigit then some (c.toNat - '0'.toNat)
  else if 'a' ≤ c ∧ c ≤ 'f' then some (c.toNat - 'a'.toNat + 10)
  else if 'A' ≤ c ∧ c ≤ 'F' then some (c.toNat - 'A'.toNat + 10)
  else none

/-- Rust `u64::from_str_radix(_, 16)`: optional leading `'+'`, at least
one hex digit, value below `2^64`. -/
def parseHexU64 (s : List Char) : Option Nat :=
  let digits := match s with
    | '+' :: rest => rest
    | _ => s
  if digits = [] then none
  else if digits.all (fun c => (hexDigitVal c).isSome) then
    let v := digits.foldl (fun acc c => acc * 16 + (hexDigitVal c).getD 0) 0
    if v < 2 ^ 64 then some v else none
  else none

/-- The `timestamp:` branch of `parse_idx`: parse
`HH:MM:SS:mmm, filepos: HEX` into `(timestamp_ms, file_position)`.
The millisecond sum wraps as u32 (release-mode wrapping arithmetic). -/
def parseTimestampLine (rest : List Char) : Option (Nat × Nat) :=
  match splitOnce ',' rest with
  | none => none
  | some (time_part, filepos_part) =>
    match stripPfx ("filepos:".toList) (strTrim filepos_part) with
    | none => none
    | some fp_raw =>
      match splitOnChar ':' (strTrim time_part) with
      | [hh, mm, ss, ms] =>
        match parseU32 hh, parseU32 mm, parseU32 ss, parseU32 ms with
        | some hv, some mv, some sv, some msv =>
          match parseHexU64 (strTrim fp_raw) with
          | some fp =>
            some ((hv * 3600000 + mv * 60000 + sv * 1000 + msv) % 2 ^ 32,
              fp)
          | none => none
        | _, _, _, _ => none
      | _ => none

/-- Per-line effect of `parse_idx` on the timestamp vector: comment,
empty, `size:`, `palette:` and `id:` lines append nothing; a
`timestamp:` line appends its parsed entry when well-formed. -/
def idxLineTimestamp (line : List Char) : Option (Nat × Nat) :=
  let t := strTrim line
  if t = [] then none
  else if t.head? = some '#' then none
  else
    match stripPfx ("size:".toList) t with
    | some _ => none
    | none =>
      match stripPfx ("palette:".toList) t with
      | some _ => none
      | none =>
        match stripPfx ("id:".toList) t with
        | some _ => none
        | none =>
          match stripPfx ("timestamp:".toList) t with
          | some rest => parseTimestampLine rest
          | none => none

/-- The `timestamps` vector built by `parse_idx`:
`(timestamp_ms, file_position)` pairs pushed in file order (a line
appends its entry when `idxLineTimestamp` yields one, else nothing). -/
def parse_idx_timestamps (content : List Char) : List (Nat × Nat) :=
  (rustLines content).foldl
    (fun acc line => acc ++ (idxLineTimestamp line).toList) []

/-- `VobSubParser::load_from_data`'s `timestamps_ms` field:
`idx.timestamps.iter().map(|t| t.timestamp_ms)` (no sorting). -/
def load_from_data_timestamps (idx_content : List Char) : List Nat :=
  (parse_idx_timestamps idx_content).map Prod.fst

/-! ## PGS display sets and the render engine (`src/pgs/*.rs`)

Data model of parsed display sets (`display_set.rs`, `composition.rs`,
`palette.rs`, `object.rs`, `window.rs`) and the render engine of
`PgsParser` (`parser.rs`).  The `HashMap`s of the source are modelled as
association lists with insert-replace (`alInsert`) and in-place update
(`alModify`); since every map is keyed by id and lookups/updates are
per-key, iteration-order differences of a hash map cannot be observed
through these operations (`build_context`'s final assembly loop writes
each distinct id exactly once). -/

/-- `HashMap::get`. -/
def alLookup {K V : Type} [DecidableEq K] : List (K × V) → K → Option V
  | [], _ => none
  | (k', v) :: rest, k => if k' = k then some v else alLookup rest k

/-- `HashMap::insert` (replaces an existing entry, else appends). -/
def alInsert {K V : Type} [DecidableEq K] : List (K × V) → K → V →
    List (K × V)
  | [], k, v => [(k, v)]
  | (k', v') :: rest, k, v =>
    if k' = k then (k, v) :: rest else (k', v') :: alInsert rest k v

/-- `HashMap::get_mut` followed by an in-place update (no effect when
the key is absent). -/
def alModify {K V : Type} [DecidableEq K] : List (K × V) → K → (V → V) →
    List (K × V)
  | [], _, _ => []
  | (k', v') :: rest, k, f =>
    if k' = k then (k', f v') :: rest else (k', v') :: alModify rest k f

/-- `CompositionObject` from `src/pgs/composition.rs`. -/
structure CompositionObject where
  object_id : Nat
  window_id : Nat
  cropped_flag : Nat
  x : Nat
  y : Nat
  crop_x : Nat
  crop_y : Nat
  crop_width : Nat
  crop_height : Nat
deriving DecidableEq

/-- `PresentationCompositionSegment` from `src/pgs/composition.rs`. -/
structure PresentationCompositionSegment where
  width : Nat
  height : Nat
  frame_rate : Nat
  composition_number : Nat
  composition_state : Nat
  palette_update_flag : Nat
  palette_id : Nat
  composition_objects : List CompositionObject
deriving DecidableEq

/-- `PaletteDefinitionSegment` from `src/pgs/palette.rs` (the `rgba`
array of 256 packed u32 words). -/
structure PaletteDefinitionSegment where
  id : Nat
  version : Nat
  rgba : List Nat
deriving DecidableEq

/-- `ObjectDefinitionSegment` from `src/pgs/object.rs`. -/
structure ObjectDefinitionSegment where
  id : Nat
  version : Nat
  sequence_flag : Nat
  data_length : Nat
  width : Nat
  height : Nat
  data : List Nat
deriving DecidableEq

/-- `WindowDefinition` from `src/pgs/window.rs`. -/
structure WindowDefinition where
  id : Nat
  x : Nat
  y : Nat
  width : Nat
  height : Nat
deriving DecidableEq

/-- `WindowDefinitionSegment` from `src/pgs/window.rs`. -/
structure WindowDefinitionSegment where
  windows : List WindowDefinition
deriving DecidableEq

/-- `DisplaySet` from `src/pgs/display_set.rs`. -/
structure DisplaySet where
  pts : Nat
  dts : Nat
  composition : Option PresentationCompositionSegment
  palettes : List PaletteDefinitionSegment
  objects : List ObjectDefinitionSegment
  windows : List WindowDefinitionSegment
deriving DecidableEq

instance : Inhabited DisplaySet :=
  ⟨{ pts := 0, dts := 0, composition := none, palettes := [],
     objects := [], windows := [] }⟩

/-- `AssembledObject` from `src/pgs/object.rs`. -/
structure AssembledObject where
  id : Nat
  version : Nat
  width : Nat
  height : Nat
  data : List Nat
deriving DecidableEq

/-- `AssembledObject::from_segments`: first segment must carry the
first-in-sequence flag; data fragments are concatenated in order. -/
def AssembledObject.from_segments
    (segments : List ObjectDefinitionSegment) : Option AssembledObject :=
  match segments with
  | [] => none
  | first :: _ =>
    if first.sequence_flag &&& 0x80 ≠ 0 then
      some { id := first.id, version := first.version,
             width := first.width, height := first.height,
             data := (segments.map ObjectDefinitionSegment.data).flatten }
    else none

/-- `DecodedBitmap` from `src/pgs/parser.rs` (indexed-pixel cache
entry). -/
structure DecodedBitmap where
  indexed : List Nat
  width : Nat
  height : Nat
deriving DecidableEq

/-- `SubtitleComposition` from `src/pgs/parser.rs` (`rgba` is the byte
array handed to the embedder). -/
structure SubtitleComposition where
  x : Nat
  y : Nat
  width : Nat
  height : Nat
  rgba : List Nat
deriving DecidableEq

/-- `SubtitleFrame` from `src/pgs/parser.rs`. -/
structure SubtitleFrame where
  width : Nat
  height : Nat
  compositions : List SubtitleComposition
deriving DecidableEq

/-- `RenderContext` from `src/pgs/parser.rs`. -/
structure RenderContext where
  object_parts : List (Nat × List ObjectDefinitionSegment)
  objects : List (Nat × AssembledObject)
  palettes : List (Nat × PaletteDefinitionSegment)
  windows : List (Nat × WindowDefinition)
deriving DecidableEq

/-- `RenderContext::new`. -/
def RenderContext.empty : RenderContext :=
  { object_parts := [], objects := [], palettes := [], windows := [] }

/-- The mutable fields of `PgsParser` that rendering touches. -/
structure PgsState where
  display_sets : List DisplaySet
  indexed_cache : List ((Nat × Nat) × DecodedBitmap)
  last_boundary_index : Option Nat
  rgba_buffer : List Nat
deriving DecidableEq

/-- One display set's contribution to the replayed context (the body of
`build_context`'s `for i in boundary_index..=target_index` loop):
object fragment lists are reset by a first-in-sequence segment and
appended to otherwise (a continuation with no preceding first segment is
discarded); palettes and windows are last-writer-wins by id. -/
def processDisplaySet (ctx : RenderContext) (ds : DisplaySet) :
    RenderContext :=
  let ctx1 := ds.objects.foldl
    (fun c obj =>
      if obj.sequence_flag &&& 0x80 ≠ 0 then
        { c with object_parts := alInsert c.object_parts obj.id [obj] }
      else
        match alLookup c.object_parts obj.id with
        | some _ =>
          { c with object_parts :=
              alModify c.object_parts obj.id (fun parts => parts ++ [obj]) }
        | none => c) ctx
  let ctx2 := ds.palettes.foldl
    (fun c p => { c with palettes := alInsert c.palettes p.id p }) ctx1
  ds.windows.foldl
    (fun c wds =>
      wds.windows.foldl
        (fun c2 w => { c2 with windows := alInsert c2.windows w.id w }) c)
    ctx2

/-- The final object-assembly loop of `build_context`. -/
def assembleObjects (ctx : RenderContext) : RenderContext :=
  ctx.object_parts.foldl
    (fun c entry =>
      match AssembledObject.from_segments entry.2 with
      | some assembled =>
        { c with objects := alInsert c.objects entry.1 assembled }
      | none => c) ctx

/-- `PgsParser::build_context`: replay display sets
`boundary_index..=target_index`, then assemble multi-part objects. -/
def build_context (sets : List DisplaySet)
    (boundary_index target_index : Nat) : RenderContext :=
  assembleObjects
    ((List.range' boundary_index (target_index + 1 - boundary_index)).foldl
      (fun ctx i => processDisplaySet ctx (sets.getD i default))
      RenderContext.empty)

/-- `PgsParser::find_boundary_index`: walk backwards from `index` to the
last display set whose composition is an EpochStart (0x80) or
AcquisitionPoint (0x40); 0 when none (checking index 0 or falling
through both yield 0). -/
def find_boundary_index (sets : List DisplaySet) : Nat → Nat
  | 0 => 0
  | i + 1 =>
    match (sets.getD (i + 1) default).composition with
    | some comp =>
      if comp.composition_state = 0x80 ∨ comp.composition_state = 0x40
        then i + 1
      else find_boundary_index sets i
    | none => find_boundary_index sets i

/-- The cache-miss decode of `render_at_index`:
`vec![0u8; width*height]` filled by `decode_rle_to_indexed` (the tail
beyond the decoded count keeps its zeros). -/
def decodeObject (obj : AssembledObject) : DecodedBitmap :=
  { indexed := decode_rle_to_indexed obj.data (obj.width * obj.height) ++
      List.replicate
        (obj.width * obj.height -
          (decode_rle_to_indexed obj.data (obj.width * obj.height)).length)
        0
    width := obj.width, height := obj.height }

/-- `u32::to_le_bytes`. -/
def u32ToLeBytes (w : Nat) : List Nat :=
  [w % 256, w / 256 % 256, w / 65536 % 256, w / 16777216 % 256]

/-- The body of `render_at_index`'s `for comp_obj in
&composition.composition_objects` loop.  The accumulator carries the
compositions built so far, the indexed cache and the reusable RGBA
buffer.  A composition object whose assembled object is missing from
the context is skipped. -/
def renderObjStep (context : RenderContext)
    (palette : PaletteDefinitionSegment)
    (acc : List SubtitleComposition ×
      List ((Nat × Nat) × DecodedBitmap) × List Nat)
    (comp_obj : CompositionObject) :
    List SubtitleComposition ×
      List ((Nat × Nat) × DecodedBitmap) × List Nat :=
  match alLookup context.objects comp_obj.object_id with
  | none => acc
  | some obj =>
    -- window lookup is optional and unused
    let hit := alLookup acc.2.1 (obj.id, obj.version)
    let decoded := hit.getD (decodeObject obj)
    let cache1 := match hit with
      | some _ => acc.2.1
      | none => alInsert acc.2.1 (obj.id, obj.version) (decodeObject obj)
    -- rgba_buffer.resize(pixel_count, 0) when shorter, never shrunk
    let buffer0 := if acc.2.2.length < decoded.width * decoded.height then
        acc.2.2 ++ List.replicate
          (decoded.width * decoded.height - acc.2.2.length) 0
      else acc.2.2
    -- apply_palette(&decoded.indexed, &palette.rgba,
    --               &mut rgba_buffer[..pixel_count])
    let buffer1 := apply_palette decoded.indexed palette.rgba
        (buffer0.take (decoded.width * decoded.height)) ++
      buffer0.drop (decoded.width * decoded.height)
    (acc.1 ++ [{ x := comp_obj.x, y := comp_obj.y,
                 width := decoded.width, height := decoded.height,
                 rgba := (buffer1.take
                     (decoded.width * decoded.height)).flatMap
                   u32ToLeBytes }],
      cache1, buffer1)

/-- The part of `render_at_index` after boundary resolution and cache
coherence: composition and palette lookup, then the render loop. -/
def renderCore (st1 : PgsState) (boundary_index index : Nat) :
    Option SubtitleFrame × PgsState :=
  match (st1.display_sets.getD index default).composition with
  | none => (none, st1)
  | some composition =>
    -- empty composition_objects means clear the screen
    if composition.composition_objects = [] then (none, st1)
    else
      let context := build_context st1.display_sets boundary_index index
      match alLookup context.palettes composition.palette_id with
      | none => (none, st1)
      | some palette =>
        let res := composition.composition_objects.foldl
          (renderObjStep context palette)
          ([], st1.indexed_cache, st1.rgba_buffer)
        (some { width := composition.width,
                height := composition.height, compositions := res.1 },
          { st1 with indexed_cache := res.2.1, rgba_buffer := res.2.2 })

/-- `PgsParser::render_at_index` from `src/pgs/parser.rs`: bounds
check, boundary resolution, cache invalidation on boundary change, then
`renderCore`.  Returns the optional frame and the updated parser
state. -/
def render_at_index (st : PgsState) (index : Nat) :
    Option SubtitleFrame × PgsState :=
  if st.display_sets.length ≤ index then (none, st)
  else
    renderCore
      (if st.last_boundary_index ≠
          some (find_boundary_index st.display_sets index) then
        { st with indexed_cache := [],
                  last_boundary_index :=
                    some (find_boundary_index st.display_sets index) }
      else st)
      (find_boundary_index st.display_sets index) index

/-- A sequence of renders, keeping only the final state. -/
def renderSeq (st : PgsState) (indices : List Nat) : PgsState :=
  indices.foldl (fun s j => (render_at_index s j).2) st

/-- Buffer-free restatement of the render loop: the compositions and
the cache it produces (the reusable RGBA buffer drops out of the
output, see `renderObjStep_eq_pure`). -/
def pureRun (context : RenderContext) (palette : PaletteDefinitionSegment) :
    List CompositionObject → List ((Nat × Nat) × DecodedBitmap) →
      List SubtitleComposition × List ((Nat × Nat) × DecodedBitmap)
  | [], c => ([], c)
  | co :: os, c =>
    match alLookup context.objects co.object_id with
    | none => pureRun context palette os c
    | some obj =>
      (SubtitleComposition.mk co.x co.y
          ((alLookup c (obj.id, obj.version)).getD (decodeObject obj)).width
          ((alLookup c (obj.id, obj.version)).getD (decodeObject obj)).height
          ((((alLookup c (obj.id, obj.version)).getD
              (decodeObject obj)).indexed.map
            (palLookup palette.rgba)).flatMap u32ToLeBytes) ::
        (pureRun context palette os
          (match alLookup c (obj.id, obj.version) with
           | some _ => c
           | none =>
             alInsert c (obj.id, obj.version) (decodeObject obj))).1,
       (pureRun context palette os
         (match alLookup c (obj.id, obj.version) with
          | some _ => c
          | none =>
            alInsert c (obj.id, obj.version) (decodeObject obj))).2)

/-- Pointwise extension of one cache by another: every entry of `c1` is
present unchanged in `c2`. -/
def cacheExtends (c2 c1 : List ((Nat × Nat) × DecodedBitmap)) : Prop :=
  ∀ k v, alLookup c1 k = some v → alLookup c2 k = some v

/-- Invariant of the indexed cache: every cached bitmap's pixel array
has exactly `width * height` entries (true of every bitmap the decode
path inserts, and of the empty cache). -/
def CacheGood (cache : List ((Nat × Nat) × DecodedBitmap)) : Prop :=
  ∀ k bm, alLookup cache k = some bm →
    bm.indexed.length = bm.width * bm.height

/-- A one-display-set fixture: an EpochStart composition referencing
object 0 (present, a 1×1 bitmap of palette index 7) and object 9
(absent). -/
def c5ExampleState : PgsState :=
  { display_sets := [
      { pts := 0, dts := 0
        composition := some
          { width := 720, height := 480, frame_rate := 0
            composition_number := 0, composition_state := 0x80
            palette_update_flag := 0, palette_id := 0
            composition_objects := [
              { object_id := 0, window_id := 0, cropped_flag := 0
                x := 5, y := 6, crop_x := 0, crop_y := 0
                crop_width := 0, crop_height := 0 },
              { object_id := 9, window_id := 0, cropped_flag := 0
                x := 1, y := 2, crop_x := 0, crop_y := 0
                crop_width := 0, crop_height := 0 }] }
        palettes := [
          { id := 0, version := 0
            rgba := [10, 11, 12, 13, 14, 15, 16, 17] }]
        objects := [
          { id := 0, version := 0, sequence_flag := 0x80
            data_length := 0, width := 1, height := 1, data := [7] }]
        windows := [] }]
    indexed_cache := []
    last_boundary_index := none
    rgba_buffer := [] }

/-! ### RLE lemmas -/

theorem rgba_go_eq_map (palette : List Nat) :
    ∀ (data : List Nat) (room : Nat),
      decode_rle_to_rgba.go palette data room =
        (decode_rle_to_indexed data room).map (palLookup palette) := by
  intro data room
  induction data, room using decode_rle_to_indexed.induct
  all_goals rw [decode_rle_to_indexed.eq_def, decode_rle_to_rgba.go.eq_def]
  all_goals simp_all [palLookup, List.map_replicate]

theorem decode_rle_to_indexed_length_le :
    ∀ (data : List Nat) (room : Nat),
      (decode_rle_to_indexed data room).length ≤ room := by
  intro data room
  induction data, room using decode_rle_to_indexed.induct
  all_goals rw [decode_rle_to_indexed.eq_def]
  all_goals simp_all
  all_goals omega

theorem apply_palette_eq_map_append :
    ∀ (indexed palette target : List Nat), indexed.length ≤ target.length →
      apply_palette indexed palette target =
        indexed.map (palLookup palette) ++ target.drop indexed.length := by
  intro indexed
  induction indexed with
  | nil => intro palette target _; simp [apply_palette]
  | cons i is ih =>
    intro palette target h
    match target with
    | [] => simp at h
    | t :: ts =>
      simp only [List.length_cons] at h
      simp [apply_palette, palLookup, ih palette ts (by omega)]

theorem bsLoop_le (ts : List Nat) (target : Nat) :
    ∀ low high, low ≤ high → bsLoop ts target low high ≤ high := by
  intro low high
  induction low, high using bsLoop.induct ts target with
  | case1 low high hlt hle ih =>
    intro _
    rw [bsLoop]
    simp only [if_pos hlt, if_pos hle]
    exact ih (by omega)
  | case2 low high hlt hle ih =>
    intro _
    rw [bsLoop]
    simp only [if_pos hlt, if_neg hle]
    exact le_trans (ih (by omega)) (by omega)
  | case3 low high hlt =>
    intro h
    rw [bsLoop]
    simp only [if_neg hlt]
    omega

theorem sorted_getD_mono {ts : List Nat} (hs : List.Sorted (· ≤ ·) ts)
    {i j : Nat} (hij : i ≤ j) (hj : j < ts.length) :
    ts.getD i 0 ≤ ts.getD j 0 := by
  have hi : i < ts.length := by omega
  rw [List.getD_eq_getElem ts 0 hi, List.getD_eq_getElem ts 0 hj]
  have := hs.rel_get_of_le (a := ⟨i, hi⟩) (b := ⟨j, hj⟩) hij
  simpa using this

theorem bsLoop_spec (ts : List Nat) (target : Nat) (hs : List.Sorted (· ≤ ·) ts) :
    ∀ low high, high ≤ ts.length →
      (∀ j, j < low → ts.getD j 0 ≤ target) →
      (∀ j, high ≤ j → j < ts.length → target < ts.getD j 0) →
      ((∀ j, j < bsLoop ts target low high → ts.getD j 0 ≤ target) ∧
       (∀ j, bsLoop ts target low high ≤ j → j < ts.length →
          target < ts.getD j 0)) := by
  intro low high
  induction low, high using bsLoop.induct ts target with
  | case1 low high hlt hcond ih =>
    intro hhigh hlo hhi
    rw [bsLoop]; simp only [if_pos hlt, if_pos hcond]
    apply ih hhigh ?_ hhi
    intro j hj
    rcases lt_or_ge j low with h | h
    · exact hlo j h
    · exact le_trans (sorted_getD_mono hs (by omega) (by omega)) hcond
  | case2 low high hlt hcond ih =>
    intro hhigh hlo hhi
    rw [bsLoop]; simp only [if_pos hlt, if_neg hcond]
    apply ih (by omega) hlo
    intro j hj hjlen
    exact lt_of_lt_of_le (by omega) (sorted_getD_mono hs hj hjlen)
  | case3 low high hlt =>
    intro hhigh hlo hhi
    rw [bsLoop]; simp only [if_neg hlt]
    exact ⟨hlo, fun j hj hlen => hhi j (by omega) hlen⟩

theorem binary_search_timestamp_lt_length (ts : List Nat) (q : Nat)
    (h : ts ≠ []) : binary_search_timestamp ts q < ts.length := by
  have hle := bsLoop_le ts q 0 ts.length (Nat.zero_le _)
  have hlen : 0 < ts.length := List.length_pos.mpr h
  unfold binary_search_timestamp
  rw [if_neg (by simp [List.isEmpty_iff, h])]
  show (if bsLoop ts q 0 ts.length > 0 then bsLoop ts q 0 ts.length - 1
      else 0) < ts.length
  split <;> omega

theorem binary_search_eq_of_greatest (ts : List Nat) (q : Nat)
    (hs : List.Sorted (· ≤ ·) ts) (i : Nat) (hi : i < ts.length)
    (hle : ts.getD i 0 ≤ q)
    (hgr : ∀ j, j < ts.length → ts.getD j 0 ≤ q → j ≤ i) :
    binary_search_timestamp ts q = i := by
  have hne : ts ≠ [] := by intro hcon; subst hcon; simp at hi
  have hL := bsLoop_spec ts q hs 0 ts.length le_rfl
    (fun j hj => absurd hj (Nat.not_lt_zero j))
    (fun j hj hlen => absurd hlen (by omega))
  have hLle := bsLoop_le ts q 0 ts.length (Nat.zero_le _)
  have hiL : i < bsLoop ts q 0 ts.length := by
    by_contra hcon
    exact absurd hle (Nat.not_le.mpr (hL.2 i (by omega) hi))
  have hup : bsLoop ts q 0 ts.length ≤ i + 1 := by
    by_contra hcon
    push_neg at hcon
    have h1 : ts.getD (bsLoop ts q 0 ts.length - 1) 0 ≤ q :=
      hL.1 _ (by omega)
    have h2 := hgr (bsLoop ts q 0 ts.length - 1) (by omega) h1
    omega
  have heq : bsLoop ts q 0 ts.length = i + 1 := by omega
  unfold binary_search_timestamp
  rw [if_neg (by simp [List.isEmpty_iff, hne])]
  show (if bsLoop ts q 0 ts.length > 0 then bsLoop ts q 0 ts.length - 1
      else 0) = i
  rw [heq]
  simp

/-! ## Claim theorems: RLE codec and binary search -/

/-- C2: for every RLE input `src`, every palette and every destination,
the fused decoder `decode_rle_to_rgba` writes exactly the same pixel
count and the same RGBA words as decoding to indexed pixels and then
applying the palette: overlaying the fused decoder's written prefix on
the destination gives exactly `apply_palette` of the indexed decode. -/
theorem C2_fused_rgba_equals_indexed_then_palette
    (src palette dst : List Nat) :
    (decode_rle_to_rgba src palette dst.length).length =
        (decode_rle_to_indexed src dst.length).length ∧
      decode_rle_to_rgba src palette dst.length ++
          dst.drop (decode_rle_to_indexed src dst.length).length =
        apply_palette (decode_rle_to_indexed src dst.length) palette dst := by
  have hmap : decode_rle_to_rgba src palette dst.length =
      (decode_rle_to_indexed src dst.length).map (palLookup palette) := by
    show decode_rle_to_rgba.go palette src dst.length = _
    exact rgba_go_eq_map palette src dst.length
  have hlen := decode_rle_to_indexed_length_le src dst.length
  constructor
  · rw [hmap, List.length_map]
  · rw [hmap, apply_palette_eq_map_append _ _ _ hlen]

/-- C7 counterexample: the input `[0x00, 0xC0, 0x00, 0x05]` does NOT
decode to `[5]` with count 1.  The byte `0xC0` starts a four-byte
extended run *with color*: `0x00` is the low length byte (total length
0) and `0x05` is the color operand, so the whole input is one code
producing no pixels. -/
theorem C7_counterexample :
    ¬ (decode_rle_to_indexed [0x00, 0xC0, 0x00, 0x05] 16 = [5] ∧
       (decode_rle_to_indexed [0x00, 0xC0, 0x00, 0x05] 16).length = 1) := by
  decide

/-- C7 (amended): `[0x00,0xC0,0x00,0x05]` is a single 14-bit extended
*color* run code (length 0, color operand `0x05`); a zero-length run
produces no output and the `0x05` byte is consumed as the color operand,
so the call returns count 0 with empty output.  The analogous
14-bit extended *transparent* run of length 0 followed by a literal —
`[0x00,0x40,0x00,0x05]` — produces no pixels for the run and then
decodes the literal, returning count 1 with output `[5]`. -/
theorem C7_amended_extended_zero_run
    (room : Nat) :
    decode_rle_to_indexed [0x00, 0xC0, 0x00, 0x05] room = [] ∧
      decode_rle_to_indexed [0x00, 0x40, 0x00, 0x05] 16 = [5] := by
  constructor
  · rw [decode_rle_to_indexed.eq_def]
    rcases Nat.eq_zero_or_pos room with h | h
    · simp [h]
    · simp only [h]
      simp [h]
      exact fun _ => ⟨Or.inl (by decide), by simp [decode_rle_to_indexed]⟩
  · decide

/-- C3: for a sorted timestamp array `T` and query `q`,
`binary_search_timestamp` returns 0 when `T` is empty and when every
element of `T` is greater than `q`; and whenever some element satisfies
`T[i] ≤ q`, the returned index is in bounds, satisfies the bound, and is
the greatest such index. -/
theorem C3_binary_search_timestamp_greatest (ts : List Nat) (q : Nat)
    (hs : List.Sorted (· ≤ ·) ts) :
    (ts = [] → binary_search_timestamp ts q = 0) ∧
    ((∀ i, i < ts.length → q < ts.getD i 0) →
        binary_search_timestamp ts q = 0) ∧
    (∀ i, i < ts.length → ts.getD i 0 ≤ q →
        binary_search_timestamp ts q < ts.length ∧
        ts.getD (binary_search_timestamp ts q) 0 ≤ q ∧
        ∀ j, j < ts.length → ts.getD j 0 ≤ q →
          j ≤ binary_search_timestamp ts q) := by
  rcases eq_or_ne ts [] with hempty | hne
  · subst hempty
    refine ⟨fun _ => rfl, fun _ => rfl, fun i hi => by simp at hi⟩
  · have hL := bsLoop_spec ts q hs 0 ts.length le_rfl
      (fun j hj => absurd hj (Nat.not_lt_zero j))
      (fun j hj hlen => absurd hlen (by omega))
    have hLle := bsLoop_le ts q 0 ts.length (Nat.zero_le _)
    have hlen : 0 < ts.length := List.length_pos.mpr hne
    have hdef : binary_search_timestamp ts q =
        if bsLoop ts q 0 ts.length > 0 then bsLoop ts q 0 ts.length - 1
        else 0 := by
      unfold binary_search_timestamp
      rw [if_neg (by simp [List.isEmpty_iff, hne])]
    refine ⟨fun h => absurd h hne, ?_, ?_⟩
    · intro hall
      rw [hdef]
      rcases Nat.eq_zero_or_pos (bsLoop ts q 0 ts.length) with h0 | hpos
      · simp [h0]
      · exfalso
        exact absurd (hL.1 0 hpos) (by exact Nat.not_le.mpr (hall 0 hlen))
    · intro i hi hle
      have hiL : i < bsLoop ts q 0 ts.length := by
        by_contra hcon
        exact absurd hle (Nat.not_le.mpr (hL.2 i (by omega) hi))
      have hpos : 0 < bsLoop ts q 0 ts.length := by omega
      rw [hdef, if_pos hpos]
      refine ⟨by omega, hL.1 _ (by omega), ?_⟩
      intro j hj hjle
      by_contra hcon
      exact absurd hjle (Nat.not_le.mpr (hL.2 j (by omega) hj))

/-- C3 witness: instantiation at the sorted array
`[0, 1000, 2000, 3000, 4000]` and query `1500` with `i = 1`. -/
theorem C3_binary_search_timestamp_greatest_witness :
    List.Sorted (· ≤ ·) ([0, 1000, 2000, 3000, 4000] : List Nat) ∧
    ((([0, 1000, 2000, 3000, 4000] : List Nat) = [] →
        binary_search_timestamp [0, 1000, 2000, 3000, 4000] 1500 = 0) ∧
     ((∀ i, i < 5 →
          (1500 : Nat) < List.getD [0, 1000, 2000, 3000, 4000] i 0) →
        binary_search_timestamp [0, 1000, 2000, 3000, 4000] 1500 = 0) ∧
     (∀ i, i < 5 → List.getD [0, 1000, 2000, 3000, 4000] i 0 ≤ 1500 →
        binary_search_timestamp [0, 1000, 2000, 3000, 4000] 1500 < 5 ∧
        List.getD [0, 1000, 2000, 3000, 4000]
            (binary_search_timestamp [0, 1000, 2000, 3000, 4000] 1500) 0
          ≤ 1500 ∧
        ∀ j, j < 5 → List.getD [0, 1000, 2000, 3000, 4000] j 0 ≤ 1500 →
          j ≤ binary_search_timestamp [0, 1000, 2000, 3000, 4000] 1500)) :=
  ⟨by decide,
    C3_binary_search_timestamp_greatest [0, 1000, 2000, 3000, 4000] 1500
      (by decide)⟩

/-- C10: for every non-empty timestamp array, `binary_search_timestamp`
returns an index strictly below the array's length, so the unguarded
indexing `self.timestamps_ms[index]` in
`VobSubParser::find_index_at_timestamp` is always in bounds. -/
theorem C10_binary_search_timestamp_in_bounds (ts : List Nat) (q : Nat)
    (h : ts ≠ []) : binary_search_timestamp ts q < ts.length :=
  binary_search_timestamp_lt_length ts q h

/-- C10 witness: instantiation at `[1000, 5500]` and query `99999`. -/
theorem C10_binary_search_timestamp_in_bounds_witness :
    ([1000, 5500] : List Nat) ≠ [] ∧
      binary_search_timestamp [1000, 5500] 99999 < 2 :=
  ⟨by decide, C10_binary_search_timestamp_in_bounds [1000, 5500] 99999
    (by decide)⟩

/-! ### SPU control-sequence lemmas -/

theorem blockLoop_trace_spec (data : List Nat) (dcsq : Nat) :
    ∀ fuel st co,
      (∀ b ∈ (blockLoop data dcsq fuel st co).2, co ≤ b) ∧
      List.Chain' (· < ·) (blockLoop data dcsq fuel st co).2 ∧
      (blockLoop data dcsq fuel st co).2.length ≤ fuel := by
  intro fuel
  induction fuel with
  | zero => intro st co; rw [blockLoop]; simp
  | succ n ih =>
    intro st co
    rw [blockLoop, if_neg (Nat.succ_ne_zero n)]
    by_cases hc : co < data.length ∧ st.found_stop = false
    · rw [if_pos hc]
      by_cases hg : co + 4 > data.length
      · rw [if_pos hg]; simp
      · rw [if_neg hg]
        by_cases hb : ((data.getD (co + 2) 0 <<< 8) ||| data.getD (co + 3) 0)
            < dcsq ∨
            ((data.getD (co + 2) 0 <<< 8) ||| data.getD (co + 3) 0) ≤ co
        · rw [if_pos hb]; simp
        · rw [if_neg hb]
          push_neg at hb
          obtain ⟨h1, h2⟩ := hb
          have ihh := ih
            (cmdLoop data ((data.getD co 0 <<< 8) ||| data.getD (co + 1) 0)
              st (co + 4)).1
            ((data.getD (co + 2) 0 <<< 8) ||| data.getD (co + 3) 0)
          simp only [Nat.add_sub_cancel]
          refine ⟨?_, ?_, ?_⟩
          · intro b hb'
            rcases List.mem_cons.mp hb' with rfl | hmem
            · exact le_refl b
            · exact le_trans (le_of_lt h2) (ihh.1 b hmem)
          · rw [List.chain'_cons']
            refine ⟨?_, ihh.2.1⟩
            intro b hb'
            exact lt_of_lt_of_le h2 (ihh.1 b (List.mem_of_mem_head? hb'))
          · simpa using Nat.succ_le_succ ihh.2.2
    · rw [if_neg hc]; simp

theorem cmdLoop_stop_cases (data : List Nat) (delay : Nat) :
    ∀ n st co, data.length - co ≤ n →
      ((cmdLoop data delay st co).1.duration = st.duration ∧
        (cmdLoop data delay st co).1.found_stop = st.found_stop) ∨
      (cmdLoop data delay st co).1.found_stop = true := by
  intro n
  induction n with
  | zero =>
    intro st co hn
    rw [cmdLoop, dif_neg (by omega)]
    exact Or.inl ⟨rfl, rfl⟩
  | succ n ih =>
    intro st co hn
    rw [cmdLoop]
    by_cases h : co < data.length
    · rw [dif_pos h]
      repeat' split
      all_goals first
        | exact Or.inl ⟨rfl, rfl⟩
        | exact Or.inr rfl
        | exact ih _ _ (by omega)
    · rw [dif_neg h]
      exact Or.inl ⟨rfl, rfl⟩

theorem cmdLoop_no_stop (data : List Nat) (delay : Nat) (st : SpuState)
    (co : Nat) (hfs : (cmdLoop data delay st co).1.found_stop = false) :
    (cmdLoop data delay st co).1.duration = st.duration ∧
      st.found_stop = false := by
  rcases cmdLoop_stop_cases data delay (data.length - co) st co le_rfl with
    ⟨h1, h2⟩ | h1
  · rw [h2] at hfs
    exact ⟨h1, hfs⟩
  · rw [h1] at hfs
    cases hfs

theorem cmdLoop_no_stop_of_no2_aux (data : List Nat) (delay : Nat)
    (hno : (0x02 : Nat) ∉ data) :
    ∀ n st co, data.length - co ≤ n → st.found_stop = false →
      (cmdLoop data delay st co).1.found_stop = false := by
  intro n
  induction n with
  | zero =>
    intro st co hn hfs
    rw [cmdLoop, dif_neg (by omega)]
    exact hfs
  | succ n ih =>
    intro st co hn hfs
    rw [cmdLoop]
    by_cases h : co < data.length
    · rw [dif_pos h]
      repeat' split
      all_goals first
        | exact hfs
        | exact ih _ _ (by omega) hfs
        | (exfalso
           rename_i heq
           exact hno
             (((List.getD_eq_getElem data 0 h).symm.trans heq) ▸
               List.getElem_mem h))
    · rw [dif_neg h]
      exact hfs

theorem cmdLoop_no_stop_of_no2 (data : List Nat) (delay : Nat)
    (hno : (0x02 : Nat) ∉ data) (st : SpuState) (co : Nat)
    (hfs : st.found_stop = false) :
    (cmdLoop data delay st co).1.found_stop = false :=
  cmdLoop_no_stop_of_no2_aux data delay hno (data.length - co) st co le_rfl
    hfs

theorem blockLoop_no_stop (data : List Nat) (dcsq : Nat) :
    ∀ fuel st co, (blockLoop data dcsq fuel st co).1.found_stop = false →
      (blockLoop data dcsq fuel st co).1.duration = st.duration ∧
        st.found_stop = false := by
  intro fuel
  induction fuel with
  | zero => intro st co; rw [blockLoop]; simp
  | succ n ih =>
    intro st co
    rw [blockLoop, if_neg (Nat.succ_ne_zero n)]
    by_cases hc : co < data.length ∧ st.found_stop = false
    · rw [if_pos hc]
      by_cases hg : co + 4 > data.length
      · rw [if_pos hg]; exact fun _ => ⟨rfl, hc.2⟩
      · rw [if_neg hg]
        by_cases hb : ((data.getD (co + 2) 0 <<< 8) ||| data.getD (co + 3) 0)
            < dcsq ∨
            ((data.getD (co + 2) 0 <<< 8) ||| data.getD (co + 3) 0) ≤ co
        · rw [if_pos hb]
          intro hfs
          exact ⟨(cmdLoop_no_stop data _ st (co + 4) hfs).1, hc.2⟩
        · rw [if_neg hb]
          simp only [Nat.add_sub_cancel]
          intro hfs
          have h1 := ih
            (cmdLoop data ((data.getD co 0 <<< 8) ||| data.getD (co + 1) 0)
              st (co + 4)).1
            ((data.getD (co + 2) 0 <<< 8) ||| data.getD (co + 3) 0) hfs
          have h2 := cmdLoop_no_stop data
            ((data.getD co 0 <<< 8) ||| data.getD (co + 1) 0) st (co + 4)
            h1.2
          exact ⟨h1.1.trans h2.1, h2.2⟩
    · rw [if_neg hc]; exact fun hfs => ⟨rfl, hfs⟩

theorem blockLoop_no_stop_of_no2 (data : List Nat) (dcsq : Nat)
    (hno : (0x02 : Nat) ∉ data) :
    ∀ fuel st co, st.found_stop = false →
      (blockLoop data dcsq fuel st co).1.found_stop = false := by
  intro fuel
  induction fuel with
  | zero => intro st co hfs; rw [blockLoop]; simpa using hfs
  | succ n ih =>
    intro st co hfs
    rw [blockLoop, if_neg (Nat.succ_ne_zero n)]
    by_cases hc : co < data.length ∧ st.found_stop = false
    · rw [if_pos hc]
      by_cases hg : co + 4 > data.length
      · rw [if_pos hg]; simpa using hfs
      · rw [if_neg hg]
        have hcmd := cmdLoop_no_stop_of_no2 data
          ((data.getD co 0 <<< 8) ||| data.getD (co + 1) 0) hno st (co + 4)
          hfs
        by_cases hb : ((data.getD (co + 2) 0 <<< 8) ||| data.getD (co + 3) 0)
            < dcsq ∨
            ((data.getD (co + 2) 0 <<< 8) ||| data.getD (co + 3) 0) ≤ co
        · rw [if_pos hb]; simpa using hcmd
        · rw [if_neg hb]
          simp only [Nat.add_sub_cancel]
          exact ih _ _ hcmd
    · rw [if_neg hc]; simpa using hfs

/-- C4: for a non-empty sorted timestamp list (u32 millisecond values,
stated here as naturals below `2^31` so that the source's saturating u32
additions coincide with plain addition), `find_index_at_timestamp`
returns −1 when the query is below every start time, and for the
greatest index `i` with `timestamps[i] ≤ t` it returns `i` exactly when
`t` is below the end time given by the specification formula
(`endTimeSpec`). -/
theorem C4_vobsub_find_index_characterization
    (ts : List Nat) (pkt : Nat → Option Nat) (t : Nat)
    (hne : ts ≠ []) (hs : List.Sorted (· ≤ ·) ts)
    (hb : ∀ x ∈ ts, x < 2 ^ 31)
    (hd : ∀ i d, pkt i = some d → d < 2 ^ 31) :
    ((∀ j, j < ts.length → t < ts.getD j 0) →
        find_index_at_timestamp ts pkt t = -1) ∧
    (∀ i, i < ts.length → ts.getD i 0 ≤ t →
        (∀ j, j < ts.length → ts.getD j 0 ≤ t → j ≤ i) →
        find_index_at_timestamp ts pkt t =
          if t < endTimeSpec ts pkt i then (i : Int) else -1) := by
  have hgetb : ∀ j, j < ts.length → ts.getD j 0 < 2 ^ 31 := by
    intro j hj
    rw [List.getD_eq_getElem ts 0 hj]
    exact hb _ (List.getElem_mem hj)
  constructor
  · intro hall
    have hidx := binary_search_timestamp_lt_length ts t hne
    unfold find_index_at_timestamp
    rw [if_neg (by simp [List.isEmpty_iff, hne])]
    show (if t < ts.getD (binary_search_timestamp ts t) 0 then (-1 : Int)
        else if t < calculate_end_time ts pkt (binary_search_timestamp ts t)
            (ts.getD (binary_search_timestamp ts t) 0)
          then (binary_search_timestamp ts t : Int) else -1) = -1
    rw [if_pos (hall _ hidx)]
  · intro i hi hle hgr
    have hbs := binary_search_eq_of_greatest ts t hs i hi hle hgr
    have hdx : ∀ d, explicitDuration pkt i = some d → d < 2 ^ 31 := by
      intro d hstep
      unfold explicitDuration at hstep
      rcases hpk : pkt i with _ | d0 <;> rw [hpk] at hstep
      · cases hstep
      · change (if 0 < d0 ∧ d0 ≠ 5000 then some d0 else none) = some d
          at hstep
        by_cases hc : 0 < d0 ∧ d0 ≠ 5000
        · rw [if_pos hc] at hstep
          injection hstep with hdd
          exact hdd ▸ hd i d0 hpk
        · rw [if_neg hc] at hstep; cases hstep
    have hcalc : calculate_end_time ts pkt i (ts.getD i 0) =
        endTimeSpec ts pkt i := by
      have hstart : ts.getD i 0 < 2 ^ 31 := hgetb i hi
      unfold calculate_end_time endTimeSpec
      rcases hstep : explicitDuration pkt i with _ | d
      · by_cases hnext : i + 1 < ts.length
        · rw [if_pos hnext, if_pos hnext]
        · rw [if_neg hnext, if_neg hnext]
          show u32SatAdd (ts.getD i 0) 5000 = ts.getD i 0 + 5000
          unfold u32SatAdd
          omega
      · have hd' : d < 2 ^ 31 := hdx d hstep
        by_cases hnext : i + 1 < ts.length
        · rw [if_pos hnext, if_pos hnext]
          show min (u32SatAdd (ts.getD i 0) d) (ts.getD (i + 1) 0) =
            min (ts.getD (i + 1) 0) (ts.getD i 0 + d)
          unfold u32SatAdd
          omega
        · rw [if_neg hnext, if_neg hnext]
          show u32SatAdd (ts.getD i 0) d = ts.getD i 0 + d
          unfold u32SatAdd
          omega
    unfold find_index_at_timestamp
    rw [if_neg (by simp [List.isEmpty_iff, hne])]
    show (if t < ts.getD (binary_search_timestamp ts t) 0 then (-1 : Int)
        else if t < calculate_end_time ts pkt (binary_search_timestamp ts t)
            (ts.getD (binary_search_timestamp ts t) 0)
          then (binary_search_timestamp ts t : Int) else -1) =
      if t < endTimeSpec ts pkt i then (i : Int) else -1
    rw [hbs, if_neg (Nat.not_lt.mpr hle), hcalc]

/-- C4 witness: two entries at 1000 ms and 5500 ms with no explicit
durations (packet parse yields nothing); the claim's example queries. -/
theorem C4_vobsub_find_index_characterization_witness :
    (([1000, 5500] : List Nat) ≠ [] ∧
     List.Sorted (· ≤ ·) ([1000, 5500] : List Nat) ∧
     (∀ x ∈ ([1000, 5500] : List Nat), x < 2 ^ 31)) ∧
    find_index_at_timestamp [1000, 5500] (fun _ => none) 999 = -1 ∧
    find_index_at_timestamp [1000, 5500] (fun _ => none) 1000 = 0 ∧
    find_index_at_timestamp [1000, 5500] (fun _ => none) 5499 = 0 ∧
    find_index_at_timestamp [1000, 5500] (fun _ => none) 5500 = 1 ∧
    find_index_at_timestamp [1000, 5500] (fun _ => none) 10501 = -1 := by
  have hd : ∀ i d, (fun _ : Nat => (none : Option Nat)) i = some d →
      d < 2 ^ 31 := fun i d h => by cases h
  refine ⟨⟨by decide, by decide, by decide⟩, ?_, ?_, ?_, ?_, ?_⟩
  · exact (C4_vobsub_find_index_characterization [1000, 5500] (fun _ => none)
      999 (by decide) (by decide) (by decide) hd).1 (by decide)
  · have h := (C4_vobsub_find_index_characterization [1000, 5500]
      (fun _ => none) 1000 (by decide) (by decide) (by decide) hd).2
      0 (by decide) (by decide) (by decide)
    rw [h]; decide
  · have h := (C4_vobsub_find_index_characterization [1000, 5500]
      (fun _ => none) 5499 (by decide) (by decide) (by decide) hd).2
      0 (by decide) (by decide) (by decide)
    rw [h]; decide
  · have h := (C4_vobsub_find_index_characterization [1000, 5500]
      (fun _ => none) 5500 (by decide) (by decide) (by decide) hd).2
      1 (by decide) (by decide) (by decide)
    rw [h]; decide
  · have h := (C4_vobsub_find_index_characterization [1000, 5500]
      (fun _ => none) 10501 (by decide) (by decide) (by decide) hd).2
      1 (by decide) (by decide) (by decide)
    rw [h]; decide

/-- C6: the DCSQ control-block loop of `parse_subtitle_data` terminates
on every input.  The loop recurses only while the iteration budget
(1000 blocks) is unspent, no stop-display command was seen, and the
next-offset points at or beyond the first DCSQ offset and strictly
beyond the current block's start — so the visited block starts are
strictly increasing (no block is ever revisited) and at most the
1000-block limit is processed.  In particular, a control block whose
`next_ctrl_offset` equals its own block start ends the chain: in the
concrete SPU `[00 08 00 04 | 00 00 00 04]` (the block at offset 4 points
back at offset 4) exactly one block is processed. -/
theorem C6_dcsq_chain_terminates :
    (∀ data dcsq fuel st co,
        List.Chain' (· < ·) (blockLoop data dcsq fuel st co).2 ∧
        (blockLoop data dcsq fuel st co).2.length ≤ fuel) ∧
    spu_block_trace [0x00, 0x08, 0x00, 0x04, 0x00, 0x00, 0x00, 0x04] =
      [4] := by
  constructor
  · intro data dcsq fuel st co
    exact ⟨(blockLoop_trace_spec data dcsq fuel st co).2.1,
      (blockLoop_trace_spec data dcsq fuel st co).2.2⟩
  · simp [spu_block_trace, blockLoop, cmdLoop, spuInit]

/-- C9 counterexample: an SPU whose bytes contain no stop-display
(0x02) command at all, yet the successfully parsed packet has
`duration_ms = 5000`, not 0 — the source substitutes the default 5000 ms
when no explicit duration was set
(`duration_ms: if duration > 0 { duration } else { 5000 }`). -/
theorem C9_counterexample :
    ((0x02 : Nat) ∉
      ([0x00, 0x08, 0x00, 0x04, 0x00, 0x00, 0x00, 0x04] : List Nat)) ∧
    (parse_subtitle_data [0x00, 0x08, 0x00, 0x04, 0x00, 0x00, 0x00, 0x04]
        0).map SubtitlePacket.duration_ms = some 5000 ∧
    (parse_subtitle_data [0x00, 0x08, 0x00, 0x04, 0x00, 0x00, 0x00, 0x04]
        0).map SubtitlePacket.duration_ms ≠ some 0 := by
  refine ⟨by decide, ?_, ?_⟩
  · simp [parse_subtitle_data, blockLoop, cmdLoop, spuInit]
  · simp [parse_subtitle_data, blockLoop, cmdLoop, spuInit]

/-- C9 (amended): for every SPU whose executed control sequence contains
no stop-display (0x02) command — `spuFoundStop data = false`, regardless
of which bytes occur in bitmap or operand data — the packet returned by
a successful parse has `duration_ms` equal to **5000** (the default
substituted when the explicit duration is unset), not 0. -/
theorem C9_amended_unset_duration_is_5000 (data : List Nat) (pts : Nat)
    (p : SubtitlePacket) (hno : spuFoundStop data = false)
    (hp : parse_subtitle_data data pts = some p) :
    p.duration_ms = 5000 := by
  by_cases h4 : data.length < 4
  · simp only [parse_subtitle_data, if_pos h4] at hp; cases hp
  · simp only [parse_subtitle_data, if_neg h4] at hp
    have hfs : (blockLoop data ((data.getD 2 0 <<< 8) ||| data.getD 3 0)
        1000 spuInit
        ((data.getD 2 0 <<< 8) ||| data.getD 3 0)).1.found_stop = false := by
      simpa only [spuFoundStop, if_neg h4] using hno
    have hdur := (blockLoop_no_stop data
      ((data.getD 2 0 <<< 8) ||| data.getD 3 0) 1000 spuInit
      ((data.getD 2 0 <<< 8) ||| data.getD 3 0) hfs).1
    injection hp with hR
    subst hR
    simp only []
    rw [hdur]
    simp [spuInit]

/-- C9 amended-claim witness: the concrete SPU
`[00 08 00 04 | 00 00 00 04]`, whose interpretation executes no
stop-display command. -/
theorem C9_amended_unset_duration_is_5000_witness :
    spuFoundStop [0x00, 0x08, 0x00, 0x04, 0x00, 0x00, 0x00, 0x04] =
      false ∧
    (SubtitlePacket.mk 0 5000 0 0 0 0 [0, 1, 2, 3] [0, 15, 15, 15] []
      []).duration_ms = 5000 := by
  have h1 : spuFoundStop [0x00, 0x08, 0x00, 0x04, 0x00, 0x00, 0x00, 0x04]
      = false := by
    simp [spuFoundStop, blockLoop, cmdLoop, spuInit]
  have h2 : parse_subtitle_data
      [0x00, 0x08, 0x00, 0x04, 0x00, 0x00, 0x00, 0x04] 0 =
      some (SubtitlePacket.mk 0 5000 0 0 0 0 [0, 1, 2, 3] [0, 15, 15, 15]
        [] []) := by
    simp [parse_subtitle_data, blockLoop, cmdLoop, spuInit]
  exact ⟨h1, C9_amended_unset_duration_is_5000 _ 0 _ h1 h2⟩

/-! ### IDX lemmas and claim C8 -/

theorem foldl_push_eq_filterMap {α β : Type} (f : α → Option β) :
    ∀ (xs : List α) (acc : List β),
      xs.foldl (fun a x => a ++ (f x).toList) acc =
        acc ++ xs.filterMap f := by
  intro xs
  induction xs with
  | nil => intro acc; simp
  | cons x xs ih =>
    intro acc
    simp only [List.foldl_cons, List.filterMap_cons]
    cases hfx : f x <;> simp [hfx, ih]

/-- C8 counterexample: an IDX text whose two timestamp lines are in
descending order parses to the timestamp list `[5500, 1000]`, which is
not sorted ascending — `parse_idx` pushes entries in file order and
`load_from_data` performs no sort. -/
theorem C8_counterexample :
    load_from_data_timestamps
        ("timestamp: 00:00:05:500, filepos: 00001000\ntimestamp: 00:00:01:000, filepos: 00000000").toList
      = [5500, 1000] ∧
    ¬ List.Sorted (· ≤ ·)
      (load_from_data_timestamps
        ("timestamp: 00:00:05:500, filepos: 00001000\ntimestamp: 00:00:01:000, filepos: 00000000").toList) := by
  constructor
  · decide
  · decide

/-- C8 (amended): after `parse_idx` followed by `load_from_data`, the
decoder's timestamp list contains exactly the millisecond values of the
well-formed `timestamp:` lines **in file order** — no sorting is
performed — so it is sorted ascending exactly when the IDX file's
timestamp lines already are. -/
theorem C8_amended_timestamps_in_file_order (content : List Char) :
    load_from_data_timestamps content =
      (rustLines content).filterMap
        (fun l => (idxLineTimestamp l).map Prod.fst) ∧
    (List.Sorted (· ≤ ·)
        ((rustLines content).filterMap
          (fun l => (idxLineTimestamp l).map Prod.fst)) ↔
      List.Sorted (· ≤ ·) (load_from_data_timestamps content)) := by
  have h : load_from_data_timestamps content =
      (rustLines content).filterMap
        (fun l => (idxLineTimestamp l).map Prod.fst) := by
    unfold load_from_data_timestamps parse_idx_timestamps
    rw [foldl_push_eq_filterMap idxLineTimestamp]
    simp [List.map_filterMap]
  exact ⟨h, by rw [h]⟩

/-! ### PGS render lemmas and claims C5, C1 -/

theorem renderObjStep_fold_length (context : RenderContext)
    (palette : PaletteDefinitionSegment) :
    ∀ (os : List CompositionObject) (cs : List SubtitleComposition)
      (cache : List ((Nat × Nat) × DecodedBitmap)) (buf : List Nat),
      ((os.foldl (renderObjStep context palette) (cs, cache, buf)).1).length
        = cs.length + (os.filter
          (fun co =>
            (alLookup context.objects co.object_id).isSome)).length := by
  intro os
  induction os with
  | nil => intro cs cache buf; simp
  | cons o os ih =>
    intro cs cache buf
    simp only [List.foldl_cons, List.filter_cons]
    cases h : alLookup context.objects o.object_id with
    | none => simp [renderObjStep, h, ih]
    | some obj =>
      simp [renderObjStep, h, ih]
      omega

/-- C5: `render_at_index` returns no frame exactly when the index is
out of bounds, the display set has no composition, the
composition-object list is empty, or the palette named by
`composition.palette_id` is absent from the replayed context; and when
a frame is returned, its composition count equals the number of
composition objects whose assembled object is present in the context —
missing objects are skipped while the rest are rendered. -/
theorem renderCore_none_and_skip (st1 : PgsState) (b index : Nat) :
    ((renderCore st1 b index).1 = none ↔
      (st1.display_sets.getD index default).composition = none ∨
      (∃ c, (st1.display_sets.getD index default).composition = some c ∧
        (c.composition_objects = [] ∨
          alLookup (build_context st1.display_sets b index).palettes
            c.palette_id = none))) ∧
    (∀ f, (renderCore st1 b index).1 = some f →
      ∃ c, (st1.display_sets.getD index default).composition = some c ∧
        f.compositions.length = (c.composition_objects.filter
          (fun co => (alLookup
            (build_context st1.display_sets b index).objects
            co.object_id).isSome)).length) := by
  cases hcomp : (st1.display_sets.getD index default).composition with
  | none =>
    rw [List.getD_eq_getElem?_getD] at hcomp
    constructor
    · simp [renderCore, hcomp]
    · intro f hf
      simp [renderCore, hcomp] at hf
  | some c =>
    rw [List.getD_eq_getElem?_getD] at hcomp
    by_cases hempty : c.composition_objects = []
    · constructor
      · simp [renderCore, hcomp, hempty]
      · intro f hf
        simp [renderCore, hcomp, hempty] at hf
    · cases hpal : alLookup (build_context st1.display_sets b index).palettes
          c.palette_id with
      | none =>
        constructor
        · simp [renderCore, hcomp, hempty, hpal]
        · intro f hf
          simp [renderCore, hcomp, hempty, hpal] at hf
      | some palette =>
        constructor
        · simp [renderCore, hcomp, hempty, hpal]
        · intro f hf
          simp only [renderCore, List.getD_eq_getElem?_getD, hcomp] at hf
          rw [if_neg hempty] at hf
          simp only [hpal] at hf
          injection hf with hf'
          refine ⟨c, rfl, ?_⟩
          rw [← hf']
          simpa using renderObjStep_fold_length _ palette
            c.composition_objects [] st1.indexed_cache st1.rgba_buffer

/-- C5: `render_at_index` returns no frame exactly when the index is
out of bounds, the display set has no composition, the
composition-object list is empty, or the palette named by
`composition.palette_id` is absent from the replayed context; and when
a frame is returned, its composition count equals the number of
composition objects whose assembled object is present in the context —
missing objects are skipped while the rest are rendered. -/
theorem C5_render_none_and_skip (st : PgsState) (index : Nat) :
    ((render_at_index st index).1 = none ↔
      st.display_sets.length ≤ index ∨
      (st.display_sets.getD index default).composition = none ∨
      (∃ c, (st.display_sets.getD index default).composition = some c ∧
        (c.composition_objects = [] ∨
          alLookup (build_context st.display_sets
              (find_boundary_index st.display_sets index) index).palettes
            c.palette_id = none))) ∧
    (∀ f, (render_at_index st index).1 = some f →
      ∃ c, (st.display_sets.getD index default).composition = some c ∧
        f.compositions.length = (c.composition_objects.filter
          (fun co => (alLookup (build_context st.display_sets
              (find_boundary_index st.display_sets index) index).objects
            co.object_id).isSome)).length) := by
  by_cases hoob : st.display_sets.length ≤ index
  · rw [render_at_index, if_pos hoob]
    exact ⟨by simp [hoob], by simp⟩
  · rw [render_at_index, if_neg hoob]
    have h := renderCore_none_and_skip
      (if st.last_boundary_index ≠
          some (find_boundary_index st.display_sets index) then
        { st with indexed_cache := [],
                  last_boundary_index :=
                    some (find_boundary_index st.display_sets index) }
      else st)
      (find_boundary_index st.display_sets index) index
    have hds : (if st.last_boundary_index ≠
        some (find_boundary_index st.display_sets index) then
        { st with indexed_cache := [],
                  last_boundary_index :=
                    some (find_boundary_index st.display_sets index) }
      else st).display_sets = st.display_sets := by
      split <;> rfl
    rw [hds] at h
    constructor
    · rw [h.1]
      constructor
      · intro hx; exact Or.inr hx
      · rintro (hx | hx)
        · omega
        · exact hx
    · intro f hf
      exact h.2 f hf

/-- C5 witness: rendering the fixture yields a frame containing exactly
the one composition whose object exists; the absent object 9 is
skipped. -/
theorem C5_render_none_and_skip_witness :
    (render_at_index c5ExampleState 0).1 =
      some (SubtitleFrame.mk 720 480
        [SubtitleComposition.mk 5 6 1 1 [17, 0, 0, 0]]) ∧
    (∃ c, (c5ExampleState.display_sets.getD 0 default).composition =
        some c ∧
      (SubtitleFrame.mk 720 480
          [SubtitleComposition.mk 5 6 1 1 [17, 0, 0, 0]]).compositions.length
        = (c.composition_objects.filter
          (fun co => (alLookup (build_context c5ExampleState.display_sets
              (find_boundary_index c5ExampleState.display_sets 0) 0).objects
            co.object_id).isSome)).length) := by
  have h1 : (render_at_index c5ExampleState 0).1 =
      some (SubtitleFrame.mk 720 480
        [SubtitleComposition.mk 5 6 1 1 [17, 0, 0, 0]]) := by decide
  exact ⟨h1, (C5_render_none_and_skip c5ExampleState 0).2 _ h1⟩

/-! ### Cache lemmas for claim C1 -/

theorem alLookup_alInsert {K V : Type} [DecidableEq K] :
    ∀ (m : List (K × V)) (k k' : K) (v : V),
      alLookup (alInsert m k v) k' =
        if k = k' then some v else alLookup m k' := by
  intro m
  induction m with
  | nil => intro k k' v; simp [alInsert, alLookup]
  | cons kv rest ih =>
    intro k k' v
    obtain ⟨k0, v0⟩ := kv
    by_cases h0 : k0 = k
    · subst h0
      simp only [alInsert, if_pos rfl]
      by_cases h1 : k0 = k' <;> simp [alLookup, h1]
    · simp only [alInsert, if_neg h0]
      by_cases h1 : k0 = k'
      · subst h1
        have hkk : ¬ k = k0 := fun hc => h0 hc.symm
        simp [alLookup, if_neg hkk]
      · simp [alLookup, h1, ih]

theorem cacheExtends_refl (c : List ((Nat × Nat) × DecodedBitmap)) :
    cacheExtends c c := fun _ _ h => h

theorem cacheExtends_trans {c3 c2 c1 : List ((Nat × Nat) × DecodedBitmap)}
    (h32 : cacheExtends c3 c2) (h21 : cacheExtends c2 c1) :
    cacheExtends c3 c1 := fun k v h => h32 k v (h21 k v h)

theorem alInsert_cacheExtends (c : List ((Nat × Nat) × DecodedBitmap))
    (k : Nat × Nat) (v : DecodedBitmap)
    (hnone : alLookup c k = none) :
    cacheExtends (alInsert c k v) c := by
  intro k' v' h
  rw [alLookup_alInsert]
  split
  · rename_i hk
    subst hk
    rw [hnone] at h
    cases h
  · exact h

theorem decodeObject_length_eq (obj : AssembledObject) :
    (decodeObject obj).indexed.length =
      (decodeObject obj).width * (decodeObject obj).height := by
  have := decode_rle_to_indexed_length_le obj.data (obj.width * obj.height)
  simp [decodeObject]
  omega

theorem CacheGood_alInsert (c : List ((Nat × Nat) × DecodedBitmap))
    (k : Nat × Nat) (v : DecodedBitmap) (hg : CacheGood c)
    (hv : v.indexed.length = v.width * v.height) :
    CacheGood (alInsert c k v) := by
  intro k' bm h
  rw [alLookup_alInsert] at h
  split at h
  · injection h with h'; subst h'; exact hv
  · exact hg k' bm h

theorem render_bytes_eq (ind pal buf : List Nat) (n : Nat)
    (hlen : ind.length = n) :
    (apply_palette ind pal
        ((if buf.length < n then
          buf ++ List.replicate (n - buf.length) 0 else buf).take n) ++
      (if buf.length < n then
        buf ++ List.replicate (n - buf.length) 0 else buf).drop n).take n =
      ind.map (palLookup pal) := by
  have hb0 : n ≤ (if buf.length < n then
      buf ++ List.replicate (n - buf.length) 0 else buf).length := by
    split
    · simp; omega
    · omega
  have htake : ((if buf.length < n then
      buf ++ List.replicate (n - buf.length) 0 else buf).take n).length
      = n := by
    rw [List.length_take]
    omega
  have happ := apply_palette_eq_map_append ind pal
    ((if buf.length < n then
      buf ++ List.replicate (n - buf.length) 0 else buf).take n)
    (by rw [htake, hlen])
  rw [happ, hlen, List.append_assoc]
  have hmaplen : (ind.map (palLookup pal)).length = n := by
    simp [hlen]
  rw [List.take_left' hmaplen]

theorem renderObjStep_eq_pure (context : RenderContext)
    (palette : PaletteDefinitionSegment) :
    ∀ (os : List CompositionObject) (cs : List SubtitleComposition)
      (cache : List ((Nat × Nat) × DecodedBitmap)) (buf : List Nat),
      CacheGood cache →
      (os.foldl (renderObjStep context palette) (cs, cache, buf)).1 =
        cs ++ (pureRun context palette os cache).1 ∧
      (os.foldl (renderObjStep context palette) (cs, cache, buf)).2.1 =
        (pureRun context palette os cache).2 := by
  intro os
  induction os with
  | nil => intro cs cache buf hg; simp [pureRun]
  | cons co os ih =>
    intro cs cache buf hg
    simp only [List.foldl_cons]
    cases h : alLookup context.objects co.object_id with
    | none =>
      have hstep : renderObjStep context palette (cs, cache, buf) co =
          (cs, cache, buf) := by
        simp [renderObjStep, h]
      rw [hstep]
      simp only [pureRun, h]
      exact ih cs cache buf hg
    | some obj =>
      cases hhit : alLookup cache (obj.id, obj.version) with
      | some cached =>
        have hcl : cached.indexed.length = cached.width * cached.height :=
          hg _ _ hhit
        simp only [renderObjStep, h, hhit, Option.getD_some]
        rw [render_bytes_eq cached.indexed palette.rgba buf _ hcl]
        simp only [pureRun, h, hhit, Option.getD_some]
        refine ⟨?_, ?_⟩
        · rw [(ih _ cache _ hg).1]
          simp
        · exact (ih _ cache _ hg).2
      | none =>
        have hgood : CacheGood
            (alInsert cache (obj.id, obj.version) (decodeObject obj)) :=
          CacheGood_alInsert cache _ _ hg (decodeObject_length_eq obj)
        have hdl : (decodeObject obj).indexed.length =
            (decodeObject obj).width * (decodeObject obj).height :=
          decodeObject_length_eq obj
        simp only [renderObjStep, h, hhit, Option.getD_none]
        rw [render_bytes_eq (decodeObject obj).indexed palette.rgba buf
          _ hdl]
        simp only [pureRun, h, hhit, Option.getD_none]
        refine ⟨?_, ?_⟩
        · rw [(ih _ (alInsert cache (obj.id, obj.version)
            (decodeObject obj)) _ hgood).1]
          simp
        · exact (ih _ (alInsert cache (obj.id, obj.version)
            (decodeObject obj)) _ hgood).2

theorem pureRun_cache_extends (context : RenderContext)
    (palette : PaletteDefinitionSegment) :
    ∀ (os : List CompositionObject)
      (c : List ((Nat × Nat) × DecodedBitmap)),
      cacheExtends (pureRun context palette os c).2 c := by
  intro os
  induction os with
  | nil => intro c; simp only [pureRun]; exact cacheExtends_refl c
  | cons co os ih =>
    intro c
    cases h : alLookup context.objects co.object_id with
    | none => simp only [pureRun, h]; exact ih c
    | some obj =>
      cases hhit : alLookup c (obj.id, obj.version) with
      | some cached =>
        simp only [pureRun, h, hhit]
        exact ih c
      | none =>
        simp only [pureRun, h, hhit]
        exact cacheExtends_trans (ih _)
          (alInsert_cacheExtends c _ _ hhit)

theorem pureRun_cacheGood (context : RenderContext)
    (palette : PaletteDefinitionSegment) :
    ∀ (os : List CompositionObject)
      (c : List ((Nat × Nat) × DecodedBitmap)),
      CacheGood c → CacheGood (pureRun context palette os c).2 := by
  intro os
  induction os with
  | nil => intro c hg; simpa only [pureRun] using hg
  | cons co os ih =>
    intro c hg
    cases h : alLookup context.objects co.object_id with
    | none => simp only [pureRun, h]; exact ih c hg
    | some obj =>
      cases hhit : alLookup c (obj.id, obj.version) with
      | some cached =>
        simp only [pureRun, h, hhit]
        exact ih c hg
      | none =>
        simp only [pureRun, h, hhit]
        exact ih _ (CacheGood_alInsert c _ _ hg (decodeObject_length_eq obj))

theorem pureRun_det (context : RenderContext)
    (palette : PaletteDefinitionSegment) :
    ∀ (os : List CompositionObject)
      (c c2 : List ((Nat × Nat) × DecodedBitmap)),
      cacheExtends c2 (pureRun context palette os c).2 →
      (pureRun context palette os c2).1 =
        (pureRun context palette os c).1 := by
  intro os
  induction os with
  | nil => intro c c2 _; simp only [pureRun]
  | cons co os ih =>
    intro c c2 hext
    cases h : alLookup context.objects co.object_id with
    | none =>
      simp only [pureRun, h]
      exact ih c c2 (by simpa only [pureRun, h] using hext)
    | some obj =>
      cases hhit : alLookup c (obj.id, obj.version) with
      | some cached =>
        have hfin : alLookup (pureRun context palette os c).2
            (obj.id, obj.version) = some cached :=
          pureRun_cache_extends context palette os c _ _ hhit
        have h2 : alLookup c2 (obj.id, obj.version) = some cached :=
          hext _ _ (by simpa only [pureRun, h, hhit] using hfin)
        simp only [pureRun, h, hhit, h2, Option.getD_some]
        rw [ih c c2 (by simpa only [pureRun, h, hhit] using hext)]
      | none =>
        have hc' : alLookup (alInsert c (obj.id, obj.version)
            (decodeObject obj)) (obj.id, obj.version) =
            some (decodeObject obj) := by
          rw [alLookup_alInsert]; simp
        have hfin : alLookup (pureRun context palette os
            (alInsert c (obj.id, obj.version) (decodeObject obj))).2
            (obj.id, obj.version) = some (decodeObject obj) :=
          pureRun_cache_extends context palette os _ _ _ hc'
        have h2 : alLookup c2 (obj.id, obj.version) =
            some (decodeObject obj) :=
          hext _ _ (by simpa only [pureRun, h, hhit] using hfin)
        simp only [pureRun, h, hhit, h2, Option.getD_some, Option.getD_none]
        rw [ih _ c2 (by simpa only [pureRun, h, hhit] using hext)]

theorem renderCore_state (st1 : PgsState) (b i : Nat)
    (hg : CacheGood st1.indexed_cache) :
    (renderCore st1 b i).2.display_sets = st1.display_sets ∧
    (renderCore st1 b i).2.last_boundary_index =
      st1.last_boundary_index ∧
    CacheGood (renderCore st1 b i).2.indexed_cache ∧
    cacheExtends (renderCore st1 b i).2.indexed_cache
      st1.indexed_cache := by
  cases hcomp : (st1.display_sets.getD i default).composition with
  | none =>
    rw [List.getD_eq_getElem?_getD] at hcomp
    simp only [renderCore, List.getD_eq_getElem?_getD, hcomp]
    exact ⟨by trivial, by trivial, hg, cacheExtends_refl _⟩
  | some c =>
    rw [List.getD_eq_getElem?_getD] at hcomp
    by_cases hempty : c.composition_objects = []
    · simp only [renderCore, List.getD_eq_getElem?_getD, hcomp,
        if_pos hempty]
      exact ⟨by trivial, by trivial, hg, cacheExtends_refl _⟩
    · cases hpal : alLookup (build_context st1.display_sets b i).palettes
          c.palette_id with
      | none =>
        simp only [renderCore, List.getD_eq_getElem?_getD, hcomp,
          if_neg hempty, hpal]
        exact ⟨by trivial, by trivial, hg, cacheExtends_refl _⟩
      | some palette =>
        simp only [renderCore, List.getD_eq_getElem?_getD, hcomp,
          if_neg hempty, hpal]
        refine ⟨by trivial, by trivial, ?_, ?_⟩
        · rw [(renderObjStep_eq_pure _ palette c.composition_objects []
            st1.indexed_cache st1.rgba_buffer hg).2]
          exact pureRun_cacheGood _ palette _ _ hg
        · rw [(renderObjStep_eq_pure _ palette c.composition_objects []
            st1.indexed_cache st1.rgba_buffer hg).2]
          exact pureRun_cache_extends _ palette _ _

theorem renderCore_det (stA stB : PgsState) (b i : Nat)
    (hds : stB.display_sets = stA.display_sets)
    (hgA : CacheGood stA.indexed_cache)
    (hgB : CacheGood stB.indexed_cache)
    (hext : cacheExtends stB.indexed_cache
      (renderCore stA b i).2.indexed_cache) :
    (renderCore stB b i).1 = (renderCore stA b i).1 := by
  cases hcomp : (stA.display_sets.getD i default).composition with
  | none =>
    rw [List.getD_eq_getElem?_getD] at hcomp
    simp only [renderCore, List.getD_eq_getElem?_getD, hds, hcomp]
  | some c =>
    rw [List.getD_eq_getElem?_getD] at hcomp
    by_cases hempty : c.composition_objects = []
    · simp only [renderCore, List.getD_eq_getElem?_getD, hds, hcomp,
        if_pos hempty]
    · cases hpal : alLookup (build_context stA.display_sets b i).palettes
          c.palette_id with
      | none =>
        simp only [renderCore, List.getD_eq_getElem?_getD, hds, hcomp,
          if_neg hempty, hpal]
      | some palette =>
        have hextP : cacheExtends stB.indexed_cache
            (pureRun (build_context stA.display_sets b i) palette
              c.composition_objects stA.indexed_cache).2 := by
          have hx := hext
          simp only [renderCore, List.getD_eq_getElem?_getD, hcomp,
            if_neg hempty, hpal] at hx
          rwa [(renderObjStep_eq_pure _ palette c.composition_objects []
            stA.indexed_cache stA.rgba_buffer hgA).2] at hx
        simp only [renderCore, List.getD_eq_getElem?_getD, hds, hcomp,
          if_neg hempty, hpal]
        rw [(renderObjStep_eq_pure _ palette c.composition_objects []
            stB.indexed_cache stB.rgba_buffer hgB).1,
          (renderObjStep_eq_pure _ palette c.composition_objects []
            stA.indexed_cache stA.rgba_buffer hgA).1,
          pureRun_det _ palette c.composition_objects stA.indexed_cache
            stB.indexed_cache hextP]

theorem renderCore_preserves_sets (st1 : PgsState) (b i : Nat) :
    (renderCore st1 b i).2.display_sets = st1.display_sets := by
  cases hcomp : (st1.display_sets.getD i default).composition with
  | none =>
    rw [List.getD_eq_getElem?_getD] at hcomp
    simp only [renderCore, List.getD_eq_getElem?_getD, hcomp]
  | some c =>
    rw [List.getD_eq_getElem?_getD] at hcomp
    by_cases hempty : c.composition_objects = []
    · simp only [renderCore, List.getD_eq_getElem?_getD, hcomp,
        if_pos hempty]
    · cases hpal : alLookup (build_context st1.display_sets b i).palettes
          c.palette_id with
      | none =>
        simp only [renderCore, List.getD_eq_getElem?_getD, hcomp,
          if_neg hempty, hpal]
      | some palette =>
        simp only [renderCore, List.getD_eq_getElem?_getD, hcomp,
          if_neg hempty, hpal]

theorem render_preserves_sets (st : PgsState) (j : Nat) :
    (render_at_index st j).2.display_sets = st.display_sets := by
  rw [render_at_index]
  by_cases hoob : st.display_sets.length ≤ j
  · rw [if_pos hoob]
  · rw [if_neg hoob]
    refine (renderCore_preserves_sets _ _ _).trans ?_
    split <;> rfl

theorem renderSeq_preserves_sets : ∀ (js : List Nat) (st : PgsState),
    (renderSeq st js).display_sets = st.display_sets := by
  intro js
  induction js with
  | nil => intro st; rfl
  | cons j js ih =>
    intro st
    exact (ih (render_at_index st j).2).trans (render_preserves_sets st j)

theorem render_at_index_invariant (st : PgsState) (j b : Nat)
    (hlb : st.last_boundary_index = some b)
    (hbj : find_boundary_index st.display_sets j = b)
    (hg : CacheGood st.indexed_cache) :
    (render_at_index st j).2.display_sets = st.display_sets ∧
    (render_at_index st j).2.last_boundary_index = some b ∧
    CacheGood (render_at_index st j).2.indexed_cache ∧
    cacheExtends (render_at_index st j).2.indexed_cache
      st.indexed_cache := by
  rw [render_at_index]
  by_cases hoob : st.display_sets.length ≤ j
  · rw [if_pos hoob]
    exact ⟨rfl, hlb, hg, cacheExtends_refl _⟩
  · rw [if_neg hoob]
    have hne : ¬ st.last_boundary_index ≠
        some (find_boundary_index st.display_sets j) := by
      rw [hlb, hbj]
      simp
    rw [if_neg hne]
    have h := renderCore_state st (find_boundary_index st.display_sets j)
      j hg
    exact ⟨h.1, h.2.1.trans hlb, h.2.2.1, h.2.2.2⟩

theorem renderSeq_invariant (b : Nat)
    (F : List ((Nat × Nat) × DecodedBitmap)) :
    ∀ (js : List Nat) (st : PgsState),
      st.last_boundary_index = some b →
      CacheGood st.indexed_cache →
      cacheExtends st.indexed_cache F →
      (∀ j ∈ js, find_boundary_index st.display_sets j = b) →
      ((renderSeq st js).display_sets = st.display_sets ∧
       (renderSeq st js).last_boundary_index = some b ∧
       CacheGood (renderSeq st js).indexed_cache ∧
       cacheExtends (renderSeq st js).indexed_cache F) := by
  intro js
  induction js with
  | nil => intro st h1 h2 h3 _; exact ⟨rfl, h1, h2, h3⟩
  | cons j js ih =>
    intro st h1 h2 h3 hall
    have hstep := render_at_index_invariant st j b h1
      (hall j (by simp)) h2
    have hih := ih (render_at_index st j).2 hstep.2.1 hstep.2.2.1
      (cacheExtends_trans hstep.2.2.2 h3)
      (by intro x hx; rw [hstep.1]; exact hall x (by simp [hx]))
    exact ⟨hih.1.trans hstep.1, hih.2.1, hih.2.2.1, hih.2.2.2⟩

theorem rerender_eq_aux (st0 stA : PgsState) (i : Nat) (js : List Nat)
    (b : Nat)
    (hbdef : find_boundary_index st0.display_sets i = b)
    (hAsets : stA.display_sets = st0.display_sets)
    (hAlast : stA.last_boundary_index = some b)
    (hAg : CacheGood stA.indexed_cache)
    (hb : ∀ j ∈ js, find_boundary_index st0.display_sets j = b)
    (hoob : ¬ st0.display_sets.length ≤ i) :
    (render_at_index (renderSeq (renderCore stA b i).2 js) i).1 =
      (renderCore stA b i).1 := by
  have hS := renderCore_state stA b i hAg
  have hseq := renderSeq_invariant b (renderCore stA b i).2.indexed_cache
    js (renderCore stA b i).2 (hS.2.1.trans hAlast) hS.2.2.1
    (cacheExtends_refl _)
    (by intro j hj
        rw [hS.1, hAsets]
        exact hb j hj)
  have hs2sets : (renderSeq (renderCore stA b i).2 js).display_sets =
      st0.display_sets := by
    rw [hseq.1, hS.1, hAsets]
  have hs2b : find_boundary_index
      (renderSeq (renderCore stA b i).2 js).display_sets i = b := by
    rw [hs2sets]
    exact hbdef
  rw [render_at_index, if_neg (by rw [hs2sets]; exact hoob)]
  rw [if_neg (show ¬ (renderSeq (renderCore stA b i).2 js).last_boundary_index
      ≠ some (find_boundary_index
        (renderSeq (renderCore stA b i).2 js).display_sets i) by
    rw [hseq.2.1, hs2b]
    simp)]
  rw [hs2b]
  exact renderCore_det stA (renderSeq (renderCore stA b i).2 js) b i
    (hs2sets.trans hAsets.symm) hAg hseq.2.2.1 hseq.2.2.2

theorem range'_getD_eq_slice (sets : List DisplaySet) :
    ∀ (n b : Nat), b + n ≤ sets.length →
      (List.range' b n).map (fun j => sets.getD j default) =
        (sets.drop b).take n := by
  intro n
  induction n with
  | zero => intro b h; simp
  | succ n ih =>
    intro b h
    rw [List.range'_succ]
    simp only [List.map_cons]
    have hblt : b < sets.length := by omega
    rw [List.drop_eq_getElem_cons hblt, List.take_succ_cons,
      List.getD_eq_getElem sets default hblt, ih (b + 1) (by omega)]

theorem build_context_eq_slice (sets : List DisplaySet) (b i : Nat)
    (hbi : b ≤ i) (hlen : i < sets.length) :
    build_context sets b i =
      assembleObjects (((sets.drop b).take (i + 1 - b)).foldl
        processDisplaySet RenderContext.empty) := by
  unfold build_context
  rw [← range'_getD_eq_slice sets (i + 1 - b) b (by omega),
    List.foldl_map]

/-- C1: the epoch context built for index `i` depends only on the
display sets in `[boundary(i), i]` (two parsers whose display-set
slices agree there build identical contexts), and re-rendering the same
index `i` without an intervening epoch boundary change — including
after rendering any other indices whose resolved boundary is the same —
yields an identical frame (byte-identical RGBA output). -/
theorem C1_context_locality_and_deterministic_rerender :
    (∀ (sets sets' : List DisplaySet) (b i : Nat), b ≤ i →
      i < sets.length → i < sets'.length →
      (sets.drop b).take (i + 1 - b) = (sets'.drop b).take (i + 1 - b) →
      build_context sets b i = build_context sets' b i) ∧
    (∀ (st0 : PgsState) (i : Nat) (js : List Nat),
      CacheGood st0.indexed_cache →
      (∀ j ∈ js, find_boundary_index st0.display_sets j =
        find_boundary_index st0.display_sets i) →
      (render_at_index (renderSeq (render_at_index st0 i).2 js) i).1 =
        (render_at_index st0 i).1) := by
  constructor
  · intro sets sets' b i hbi hlen hlen' hslice
    rw [build_context_eq_slice sets b i hbi hlen,
      build_context_eq_slice sets' b i hbi hlen', hslice]
  · intro st0 i js hg hb
    by_cases hoob : st0.display_sets.length ≤ i
    · have h1 : render_at_index st0 i = (none, st0) := by
        rw [render_at_index, if_pos hoob]
      rw [h1]
      have hsets : (renderSeq st0 js).display_sets = st0.display_sets :=
        renderSeq_preserves_sets js st0
      rw [render_at_index, if_pos (by rw [hsets]; exact hoob)]
    · have h1 : render_at_index st0 i =
          renderCore (if st0.last_boundary_index ≠
              some (find_boundary_index st0.display_sets i) then
            { st0 with indexed_cache := [],
                       last_boundary_index :=
                         some (find_boundary_index st0.display_sets i) }
          else st0) (find_boundary_index st0.display_sets i) i := by
        rw [render_at_index, if_neg hoob]
      rw [h1]
      refine rerender_eq_aux st0 _ i js
        (find_boundary_index st0.display_sets i) rfl ?_ ?_ ?_ hb hoob
      · split <;> rfl
      · split
        · rfl
        · rename_i hcon
          exact not_not.mp hcon
      · split
        · intro k v hkv
          simp [alLookup] at hkv
        · exact hg

/-- C1 witness: at the concrete fixture, the context built from the one
display set equals the one built from any extension agreeing on the
slice, and re-rendering index 0 after another render of index 0 yields
the same frame. -/
theorem C1_context_locality_and_deterministic_rerender_witness :
    (0 ≤ 0 ∧ 0 < c5ExampleState.display_sets.length ∧
      0 < (c5ExampleState.display_sets ++ [default]).length ∧
      (c5ExampleState.display_sets.drop 0).take 1 =
        ((c5ExampleState.display_sets ++ [default]).drop 0).take 1 ∧
      build_context c5ExampleState.display_sets 0 0 =
        build_context (c5ExampleState.display_sets ++ [default]) 0 0) ∧
    (CacheGood c5ExampleState.indexed_cache ∧
      (∀ j ∈ [0], find_boundary_index c5ExampleState.display_sets j =
        find_boundary_index c5ExampleState.display_sets 0) ∧
      (render_at_index (renderSeq (render_at_index c5ExampleState 0).2 [0])
          0).1 = (render_at_index c5ExampleState 0).1) := by
  have hg : CacheGood c5ExampleState.indexed_cache := by
    intro k bm h
    simp [c5ExampleState, alLookup] at h
  have hb : ∀ j ∈ [0], find_boundary_index c5ExampleState.display_sets j =
      find_boundary_index c5ExampleState.display_sets 0 := by
    intro j hj
    simp at hj
    subst hj
    rfl
  refine ⟨⟨Nat.le_refl 0, by simp [c5ExampleState], by simp, rfl, ?_⟩,
    hg, hb, ?_⟩
  · exact C1_context_locality_and_deterministic_rerender.1
      c5ExampleState.display_sets (c5ExampleState.display_sets ++ [default])
      0 0 (Nat.le_refl 0) (by simp [c5ExampleState]) (by simp) rfl
  · exact C1_context_locality_and_deterministic_rerender.2
      c5ExampleState 0 [0] hg hb

end LibBitSub
